import Mathlib

/-!
Verification of the SSE (Server-Sent Events) push-notification system:
the server-side connection registry (`SSEManager`), the wire-format frame
codec (`formatSSE`), and the client-side reconnecting hook
(`useEventSource`) with its typed subscription dispatcher.

The TypeScript sources are shallowly embedded: JavaScript `Map` and `Set`
become association lists with the corresponding operations, JavaScript
truthiness tests are made explicit, mutable refs become fields of explicit
state records threaded through step functions, and `setInterval` /
`setTimeout` handles become explicitly tracked timer identifiers.
-/

namespace SSE

/-! ## Association-list model of JavaScript `Map` and `Set` -/

/-- Lookup in an association list, mirroring `Map.get` (first match). -/
def mget {α : Type} (m : List (String × α)) (k : String) : Option α :=
  match m with
  | [] => none
  | (k', v) :: rest => if k' = k then some v else mget rest k

/-- Deletion of a key, mirroring `Map.delete`. -/
def mdel {α : Type} (m : List (String × α)) (k : String) : List (String × α) :=
  m.filter (fun p => p.1 ≠ k)

/-- Insert-or-replace of a key, mirroring `Map.set`. -/
def mset {α : Type} (m : List (String × α)) (k : String) (v : α) : List (String × α) :=
  mdel m k ++ [(k, v)]

/-- Membership test, mirroring `Map.has`. -/
def mhas {α : Type} (m : List (String × α)) (k : String) : Bool :=
  (mget m k).isSome

/-- Add to a JavaScript `Set` (no duplicates, insertion order kept). -/
def sadd (s : List String) (x : String) : List String :=
  if x ∈ s then s else s ++ [x]

/-- Delete from a JavaScript `Set`. -/
def sdel (s : List String) (x : String) : List String :=
  s.filter (fun y => y ≠ x)

theorem mget_nil {α : Type} (k : String) : mget ([] : List (String × α)) k = none := rfl

theorem mget_cons {α : Type} (k' k : String) (v : α) (m : List (String × α)) :
    mget ((k', v) :: m) k = if k' = k then some v else mget m k := rfl

theorem mget_append_none {α : Type} (m₁ m₂ : List (String × α)) (k : String)
    (h : mget m₁ k = none) : mget (m₁ ++ m₂) k = mget m₂ k := by
  induction m₁ with
  | nil => rfl
  | cons p rest ih =>
    obtain ⟨a, v⟩ := p
    by_cases hak : a = k
    · simp [mget, hak] at h
    · simp only [mget, hak, if_neg hak] at h
      simpa [mget, hak] using ih h

theorem mget_append_some {α : Type} (m₁ m₂ : List (String × α)) (k : String) (v : α)
    (h : mget m₁ k = some v) : mget (m₁ ++ m₂) k = some v := by
  induction m₁ with
  | nil => simp [mget] at h
  | cons p rest ih =>
    obtain ⟨a, w⟩ := p
    by_cases hak : a = k
    · simp only [mget, if_pos hak] at h
      simp [mget, hak, h]
    · simp only [mget, if_neg hak] at h
      simpa [mget, hak] using ih h

theorem mget_mdel {α : Type} (m : List (String × α)) (k k' : String) :
    mget (mdel m k) k' = if k' = k then none else mget m k' := by
  induction m with
  | nil => simp [mget, mdel]
  | cons p rest ih =>
    obtain ⟨a, v⟩ := p
    by_cases hak : a = k
    · subst hak
      have h1 : mdel ((a, v) :: rest) a = mdel rest a := by simp [mdel]
      rw [h1, ih]
      by_cases hk : k' = a
      · simp [hk]
      · have h2 : ¬ a = k' := fun h => hk h.symm
        simp [mget, hk, h2]
    · have h1 : mdel ((a, v) :: rest) k = (a, v) :: mdel rest k := by simp [mdel, hak]
      rw [h1]
      by_cases hak' : a = k'
      · subst hak'
        have hk : ¬ a = k := hak
        have hk2 : ¬ a = k := hak
        simp [mget, fun h : a = k => hak h]
      · simp [mget, hak', ih]

theorem mget_mset {α : Type} (m : List (String × α)) (k k' : String) (v : α) :
    mget (mset m k v) k' = if k' = k then some v else mget m k' := by
  unfold mset
  have hnone : mget (mdel m k) k = none := by rw [mget_mdel]; simp
  by_cases h : k' = k
  · subst h
    rw [mget_append_none _ _ _ hnone]
    simp [mget]
  · have heq : mget (mdel m k) k' = mget m k' := by rw [mget_mdel]; simp [h]
    cases hm : mget m k' with
    | some w =>
      rw [mget_append_some _ _ _ _ (heq.trans hm)]
      simp [h]
    | none =>
      rw [mget_append_none _ _ _ (heq.trans hm)]
      have hk : ¬ k = k' := fun hh => h hh.symm
      simp [mget, hk, h]

theorem mem_sadd (s : List String) (x y : String) :
    y ∈ sadd s x ↔ y ∈ s ∨ y = x := by
  unfold sadd
  by_cases h : x ∈ s
  · simp [h]
    intro hy; subst hy; exact h
  · simp [h]

theorem mem_sdel (s : List String) (x y : String) :
    y ∈ sdel s x ↔ y ∈ s ∧ y ≠ x := by
  unfold sdel
  simp

/-! ## JavaScript truthiness -/

/-- Truthiness of an optional JavaScript string: `undefined`, `null` and the
empty string are falsy. -/
def jsTruthyStr (s : Option String) : Bool :=
  match s with
  | none => false
  | some s => s ≠ ""

/-- Truthiness of an optional JavaScript number field: `undefined` and `0`
are falsy. -/
def jsTruthyNum (n : Option Int) : Bool :=
  match n with
  | none => false
  | some n => n ≠ 0

/-! ## JSON values and `JSON.stringify` -/

/-- JavaScript values that can appear as an event `data` payload.
`Json.str` doubles as the string case of `typeof data === "string"`. -/
inductive Json where
  | null : Json
  | bool (b : Bool) : Json
  | num (n : Int) : Json
  | str (s : String) : Json
  | arr (xs : List Json) : Json
  | obj (fs : List (String × Json)) : Json

/-- Escape a string for inclusion in JSON output, as `JSON.stringify` does
for the common characters. -/
def escapeJson (s : String) : String :=
  s.data.foldl
    (fun acc c =>
      if c = '"' then acc ++ "\\\""
      else if c = '\\' then acc ++ "\\\\"
      else if c = '\n' then acc ++ "\\n"
      else acc.push c)
    ""

mutual

/-- Compact serialization of a JSON value, as `JSON.stringify` produces. -/
def Json.stringify : Json → String
  | Json.null => "null"
  | Json.bool true => "true"
  | Json.bool false => "false"
  | Json.num n => toString n
  | Json.str s => "\"" ++ escapeJson s ++ "\""
  | Json.arr xs => "[" ++ stringifyArr xs ++ "]"
  | Json.obj fs => "\x7b" ++ stringifyObj fs ++ "\x7d"

/-- Serialize the elements of a JSON array, comma separated. -/
def stringifyArr : List Json → String
  | [] => ""
  | [x] => Json.stringify x
  | x :: y :: rest => Json.stringify x ++ "," ++ stringifyArr (y :: rest)

/-- Serialize the fields of a JSON object, comma separated. -/
def stringifyObj : List (String × Json) → String
  | [] => ""
  | [(k, v)] => "\"" ++ escapeJson k ++ "\":" ++ Json.stringify v
  | (k, v) :: f :: rest =>
      "\"" ++ escapeJson k ++ "\":" ++ Json.stringify v ++ "," ++ stringifyObj (f :: rest)

end

/-! ## Frame codec (`formatSSE` and `comment` from `format.ts`) -/

/-- An SSE event as handed to the codec: every field may be absent
(`undefined`). -/
structure SSEEvent where
  event : Option String := none
  data : Option Json := none
  id : Option String := none
  retry : Option Int := none

/-- Payload serialization inside `formatSSE`:
`typeof data === "string" ? data : JSON.stringify(data)`. -/
def serializeData (d : Json) : String :=
  match d with
  | Json.str s => s
  | d => Json.stringify d

/-- The frame encoder `formatSSE`, translated line by line from the source:
a string chunk is built up by appending the `id:`, `event:`, `retry:` and
`data:` lines under the source's truthiness / `!== undefined` guards, then
the terminating newline (blank line) is appended.  (The source finally
UTF-8-encodes the chunk; we keep the chunk as a string.) -/
def formatSSE (ev : SSEEvent) : String :=
  let chunk := ""
  let chunk := if jsTruthyStr ev.id then chunk ++ "id: " ++ ev.id.getD "" ++ "\n" else chunk
  let chunk := if jsTruthyStr ev.event then chunk ++ "event: " ++ ev.event.getD "" ++ "\n" else chunk
  let chunk := if jsTruthyNum ev.retry then chunk ++ "retry: " ++ toString (ev.retry.getD 0) ++ "\n" else chunk
  let chunk :=
    match ev.data with
    | none => chunk
    | some d => chunk ++ "data: " ++ serializeData d ++ "\n"
  chunk ++ "\n"

/-- The comment-frame encoder `comment` from `format.ts`. -/
def commentFrame (data : String) : String :=
  ": " ++ data ++ "\n\n"

/-- The `id:` line of a frame, empty when the field is omitted. -/
def idPart (ev : SSEEvent) : String :=
  if jsTruthyStr ev.id then "id: " ++ ev.id.getD "" ++ "\n" else ""

/-- The `event:` line of a frame, empty when the field is omitted. -/
def eventPart (ev : SSEEvent) : String :=
  if jsTruthyStr ev.event then "event: " ++ ev.event.getD "" ++ "\n" else ""

/-- The `retry:` line of a frame, empty when the field is omitted. -/
def retryPart (ev : SSEEvent) : String :=
  if jsTruthyNum ev.retry then "retry: " ++ toString (ev.retry.getD 0) ++ "\n" else ""

/-- The `data:` line of a frame, empty when the field is omitted. -/
def dataPart (ev : SSEEvent) : String :=
  match ev.data with
  | none => ""
  | some d => "data: " ++ serializeData d ++ "\n"

/-! ## Server registry (`SSEManager` from `manager.ts`, the variant with the
asynchronous `removeClient` that closes the client last) -/

/-- An `SSEClient` as seen by the registry: its id and its optional owning
user id.  The writable stream and `close()` affect only the client itself,
never the registry's two maps, so they are not part of the registry state. -/
structure Client1 where
  id : String
  userId : Option String
deriving DecidableEq

/-- The two maps of `SSEManager`: `clients` (clientId → client) and
`clientIdsByUser` (userId → set of clientIds). -/
structure Registry where
  byId : List (String × Client1)
  byUser : List (String × List String)
deriving DecidableEq

/-- A freshly constructed manager: both maps empty. -/
def Registry.init : Registry := ⟨[], []⟩

/-- The user id under which the registry tracks a client: JavaScript's
`client.userId` when it is truthy, nothing otherwise (the source guards
every user-map access with a truthiness test on `client.userId`). -/
def clientUser (c : Client1) : Option String :=
  if jsTruthyStr c.userId then c.userId else none

/-- `SSEManager.addClient`: store into `clients`; if `client.userId` is
falsy, return without touching the user map; otherwise add the id to the
user's set, creating the set if absent. -/
def addClient (r : Registry) (c : Client1) : Registry :=
  let newById := mset r.byId c.id c
  if jsTruthyStr c.userId then
    let uid := c.userId.getD ""
    let prev := (mget r.byUser uid).getD []
    { byId := newById, byUser := mset r.byUser uid (sadd prev c.id) }
  else
    { byId := newById, byUser := r.byUser }

/-- `SSEManager.removeClient`: no-op for an unknown id; otherwise delete
from `clients`, and when `client.userId` is truthy delete the id from the
user's set, pruning the user entry when the set becomes empty.  (The final
`await client.close()` touches only the client's stream, not the maps.) -/
def removeClient (r : Registry) (cid : String) : Registry :=
  match mget r.byId cid with
  | none => r
  | some c =>
    let newById := mdel r.byId cid
    if jsTruthyStr c.userId then
      let uid := c.userId.getD ""
      match mget r.byUser uid with
      | none => { byId := newById, byUser := r.byUser }
      | some s =>
        let s' := sdel s cid
        if s'.length = 0 then
          { byId := newById, byUser := mdel r.byUser uid }
        else
          { byId := newById, byUser := mset r.byUser uid s' }
    else
      { byId := newById, byUser := r.byUser }

/-- One registry call. -/
inductive RegOp where
  | add (c : Client1) : RegOp
  | remove (cid : String) : RegOp

/-- Apply one registry call. -/
def applyOp (r : Registry) : RegOp → Registry
  | RegOp.add c => addClient r c
  | RegOp.remove cid => removeClient r cid

/-- Apply a sequence of registry calls. -/
def applyOps (r : Registry) : List RegOp → Registry
  | [] => r
  | op :: rest => applyOps (applyOp r op) rest

/-- A run in which every `addClient` uses an id that is not registered at
the moment of the call (no last-writer-wins overwrite of a live id). -/
def freshRun : Registry → List RegOp → Prop
  | _, [] => True
  | r, RegOp.add c :: rest => mget r.byId c.id = none ∧ freshRun (addClient r c) rest
  | r, RegOp.remove cid :: rest => freshRun (removeClient r cid) rest

/-- The cross-invariant exactly as the specification states it: a user-id
key exists in `byUser` iff some registered connection has that user id;
every member of a `byUser` set is a key of `byId`; every registered
connection with a user id is a member of that user's set; and no `byUser`
set is ever empty. -/
def RegInv (r : Registry) : Prop :=
  (∀ uid : String, (mget r.byUser uid).isSome = true ↔
      ∃ cid c, mget r.byId cid = some c ∧ clientUser c = some uid)
  ∧ (∀ uid s cid, mget r.byUser uid = some s → cid ∈ s → (mget r.byId cid).isSome = true)
  ∧ (∀ cid c uid, mget r.byId cid = some c → clientUser c = some uid →
      ∃ s, mget r.byUser uid = some s ∧ cid ∈ s)
  ∧ (∀ uid s, mget r.byUser uid = some s → s ≠ [])

/-- Strengthened inductive invariant: membership in a user's set pins down
the registered client's user id. -/
def InvAux (r : Registry) : Prop :=
  (∀ uid s cid, mget r.byUser uid = some s → cid ∈ s →
      ∃ c, mget r.byId cid = some c ∧ clientUser c = some uid)
  ∧ (∀ cid c uid, mget r.byId cid = some c → clientUser c = some uid →
      ∃ s, mget r.byUser uid = some s ∧ cid ∈ s)
  ∧ (∀ uid s, mget r.byUser uid = some s → s ≠ [])

/-- The two-step duplicate-id run: the same connection id registered for
user `u1` and then re-registered for user `u2`. -/
def dupRegistry : Registry :=
  addClient (addClient Registry.init ⟨"a", some "u1"⟩) ⟨"a", some "u2"⟩

/-! ## Server registry with heartbeats (`SSEManager` from `manager.ts`, the
variant storing a writer and a heartbeat handle on each client) -/

/-- An `SSEClient` record of the heartbeat-carrying manager variant:
`clientId`, optional `userId`, and the optional armed `heartbeat` interval
handle.  The writable stream itself is modelled by the failure environment
passed to the send operations. -/
structure Client3 where
  clientId : String
  userId : Option String
  heartbeat : Option Nat
deriving DecidableEq

/-- The process state around this manager variant: the two registry maps,
the set of currently armed interval timers (handle paired with the client
id its callback closes over), the next fresh timer handle, and logs of the
write attempts and completed writes. -/
structure World3 where
  byId : List (String × Client3)
  byUser : List (String × List String)
  timers : List (Nat × String)
  nextTimer : Nat
  attempts : List String
  writes : List (String × String)
deriving DecidableEq

/-- A fresh manager process: everything empty. -/
def World3.init : World3 := ⟨[], [], [], 0, [], []⟩

/-- Timer handles currently armed for the given client id. -/
def ownedTimers (w : World3) (cid : String) : List Nat :=
  (w.timers.filter (fun t => t.2 = cid)).map (fun t => t.1)

/-- `SSEManager.addClient` (heartbeat variant): store into `clientsById`;
skip the user map when `client.userId` is falsy. -/
def addClient3 (w : World3) (c : Client3) : World3 :=
  let newById := mset w.byId c.clientId c
  if jsTruthyStr c.userId then
    let uid := c.userId.getD ""
    let prev := (mget w.byUser uid).getD []
    { w with byId := newById, byUser := mset w.byUser uid (sadd prev c.clientId) }
  else
    { w with byId := newById }

/-- `SSEManager.removeClient` (heartbeat variant): no-op for an unknown id;
otherwise clear the client's heartbeat interval if armed, delete from
`clientsById`, and when `client.userId` is truthy delete the id from the
user's set, pruning an emptied set. -/
def removeClient3 (w : World3) (cid : String) : World3 :=
  match mget w.byId cid with
  | none => w
  | some c =>
    let newTimers :=
      match c.heartbeat with
      | none => w.timers
      | some h => w.timers.filter (fun t => t.1 ≠ h)
    let newById := mdel w.byId cid
    if jsTruthyStr c.userId then
      let uid := c.userId.getD ""
      match mget w.byUser uid with
      | none => { w with byId := newById, timers := newTimers }
      | some s =>
        let s' := sdel s cid
        if s'.length = 0 then
          { w with byId := newById, timers := newTimers, byUser := mdel w.byUser uid }
        else
          { w with byId := newById, timers := newTimers, byUser := mset w.byUser uid s' }
    else
      { w with byId := newById, timers := newTimers }

/-- `SSEManager.startHeartbeat`: no-op for an unknown id; otherwise clear
the prior interval if armed (`clearInterval`), then arm a fresh interval
(`setInterval`) and record its handle on the client. -/
def startHeartbeat3 (w : World3) (cid : String) : World3 :=
  match mget w.byId cid with
  | none => w
  | some c =>
    let clearedTimers :=
      match c.heartbeat with
      | none => w.timers
      | some h => w.timers.filter (fun t => t.1 ≠ h)
    { w with
      byId := mset w.byId cid { c with heartbeat := some w.nextTimer },
      timers := clearedTimers ++ [(w.nextTimer, cid)],
      nextTimer := w.nextTimer + 1 }

/-- One tick of the armed heartbeat interval with handle `h`: the callback
writes a ping comment frame to the client's writer and, when that write
rejects (the client id is in the dead-peer set `failing`), falls into the
`catch` that calls `removeClient` — the same removal path as an explicit
disconnect.  A handle that is no longer armed does nothing. -/
def heartbeatTick (w : World3) (failing : List String) (h : Nat) : World3 :=
  match w.timers.find? (fun t => t.1 = h) with
  | none => w
  | some t =>
    if t.2 ∈ failing then
      removeClient3 w t.2
    else
      { w with writes := w.writes ++ [(t.2, commentFrame "ping")] }

/-- `SSEManager.sendToClient`: no-op for an unknown id; otherwise attempt
to write the encoded frame (`try`), and on a write rejection (`catch`) call
`removeClient`.  Every found client produces a write attempt; the operation
itself never lets the failure escape. -/
def sendToClient3 (w : World3) (failing : List String) (cid : String) (ev : SSEEvent) : World3 :=
  match mget w.byId cid with
  | none => w
  | some _ =>
    if cid ∈ failing then
      removeClient3 { w with attempts := w.attempts ++ [cid] } cid
    else
      { w with
        attempts := w.attempts ++ [cid],
        writes := w.writes ++ [(cid, formatSSE ev)] }

/-- `SSEManager.sendToUser`: resolve the user's connection-id set; a
missing user id is a silent no-op.  Otherwise the set is materialized
(`Array.from(ids)`) before any send — the snapshot — and every member is
sent to via `sendToClient`; the cooperative interleaving of the concurrent
`Promise.all` fan-out is modelled as a fold in set order. -/
def sendToUser3 (w : World3) (failing : List String) (uid : String) (ev : SSEEvent) : World3 :=
  match mget w.byUser uid with
  | none => w
  | some ids => ids.foldl (fun acc cid => sendToClient3 acc failing cid ev) w

/-! ## Client hook (`useEventSource.tsx`, the subscribe-based variant)

The hook's mutable refs, React state and the current `EventSource` object
are collected into one `Hook` record; the browser-side sources of events
(user calls, transport callbacks, the reconnect timer) become an event
type with a step function.  Subscriber callbacks are identified by numeric
handler ids; the environment `beh` tells which handlers throw when
invoked, and `parse` is the hook's pluggable `event.data` parser. -/

/-- The reconnect configuration of `useEventSource`, with its defaults. -/
structure HookConfig where
  reconnectEnabled : Bool := true
  initialDelayMs : Nat := 1000
  maxDelayMs : Nat := 15000
  maxRetries : Nat := 10
deriving DecidableEq

/-- The whole observable state of one `useEventSource` instance.
`es` is the current `EventSource` object's `readyState` (`none` when
`eventSourceRef.current` is `null`); `scheduled` logs every backoff delay
handed to `setTimeout`; `calls` logs every subscriber invocation
(handler id, event name, payload — `none` for the payloadless `open`
channel); `handlerErrors` logs the handlers whose invocation threw and was
caught by the dispatcher. -/
structure Hook where
  listeners : List (String × List Nat)
  attached : List String
  es : Option Nat
  retry : Nat
  timerPending : Bool
  destroyed : Bool
  connected : Bool
  readyState : Nat
  lastEventId : Option String
  lastEventName : Option String
  lastData : Option Json
  errorFlag : Bool
  scheduled : List Nat
  calls : List (Nat × String × Option Json)
  handlerErrors : List Nat

/-- The hook state right after the first render. -/
def Hook.start (lastEventId : Option String) : Hook :=
  { listeners := [], attached := [], es := none, retry := 0,
    timerPending := false, destroyed := false,
    connected := false, readyState := 0,
    lastEventId := lastEventId, lastEventName := none, lastData := none,
    errorFlag := false, scheduled := [], calls := [], handlerErrors := [] }

/-- Add to a set of handler ids (JavaScript `Set.add`). -/
def nadd (s : List Nat) (x : Nat) : List Nat :=
  if x ∈ s then s else s ++ [x]

/-- The three reserved channel names of the dispatcher. -/
def isReserved (name : String) : Bool :=
  name == "open" || name == "error" || name == "message"

/-- The body of the `for (const fn of set)` loop in `emit`: invoke each
handler in order inside a `try`; a throwing handler is logged by the
`catch` and the loop continues with the remaining handlers.  Returns the
invocation log and the caught-error log of the loop. -/
def emitRun (beh : Nat → Bool) (name : String) (payload : Option Json) :
    List Nat → List (Nat × String × Option Json) × List Nat
  | [] => ([], [])
  | hid :: rest =>
    let tail := emitRun beh name payload rest
    ((hid, name, payload) :: tail.1, if beh hid then hid :: tail.2 else tail.2)

/-- The hook's `emit`: look up the name's subscriber set; absent set means
nothing to do; otherwise run every handler with per-handler try/catch. -/
def emit (beh : Nat → Bool) (s : Hook) (name : String) (payload : Option Json) : Hook :=
  match mget s.listeners name with
  | none => s
  | some hids =>
    let run := emitRun beh name payload hids
    { s with calls := s.calls ++ run.1, handlerErrors := s.handlerErrors ++ run.2 }

/-- The hook's `addListener`: insert the handler into the name's set
(creating it if absent); then, when the name is not reserved, an
`EventSource` object currently exists and the name has no browser-level
listener yet, attach a dispatch listener for the name on that object. -/
def addListener (s : Hook) (name : String) (hid : Nat) : Hook :=
  let prev := (mget s.listeners name).getD []
  let s1 := { s with listeners := mset s.listeners name (nadd prev hid) }
  if isReserved name = false ∧ s1.es.isSome = true ∧ name ∉ s1.attached then
    { s1 with attached := s1.attached ++ [name] }
  else
    s1

/-- The unsubscribe closure returned by `addListener`: remove exactly that
handler; prune the name's entry when its set becomes empty. -/
def removeListener (s : Hook) (name : String) (hid : Nat) : Hook :=
  match mget s.listeners name with
  | none => s
  | some hids =>
    let hids' := hids.filter (fun x => x ≠ hid)
    if hids'.length = 0 then
      { s with listeners := mdel s.listeners name }
    else
      { s with listeners := mset s.listeners name hids' }

/-- The hook's `cleanup`: clear any pending reconnect timer, forget the
attached names, close and drop the current `EventSource`. -/
def cleanup (s : Hook) : Hook :=
  { s with timerPending := false, attached := [], es := none }

/-- The hook's `connect`: bail out when the current transport is already
`OPEN`; otherwise clear the destroyed flag, tear everything down and
create a fresh `EventSource` in the `CONNECTING` state.  (The new object's
`onopen` / `onerror` / `onmessage` are installed here; named events get no
browser-level listener.) -/
def connect (s : Hook) : Hook :=
  if s.es = some 1 then s
  else
    let s1 := cleanup { s with destroyed := false }
    { s1 with es := some 0 }

/-- The hook's `scheduleReconnect`: bail out when reconnection is disabled
or the client is destroyed, or when the attempt counter has reached
`maxRetries`; otherwise compute the capped exponential backoff delay, bump
the counter and arm the timer. -/
def scheduleReconnect (cfg : HookConfig) (s : Hook) : Hook :=
  if cfg.reconnectEnabled = false ∨ s.destroyed = true then s
  else if cfg.maxRetries ≤ s.retry then s
  else
    let delay := min (cfg.initialDelayMs * 2 ^ s.retry) cfg.maxDelayMs
    { s with retry := s.retry + 1, timerPending := true, scheduled := s.scheduled ++ [delay] }

/-- The hook's `disconnect`: set the destroyed flag, tear down (cancelling
any pending reconnect timer and closing the transport), and expose the
closed state. -/
def disconnect (s : Hook) : Hook :=
  { cleanup { s with destroyed := true } with connected := false, readyState := 2 }

/-- The `onopen` callback: fires when the current transport finishes
connecting; resets the backoff counter, exposes the open state, clears the
error and notifies the `open` subscribers. -/
def handleOpen (beh : Nat → Bool) (s : Hook) : Hook :=
  if s.es = some 0 then
    emit beh
      { s with es := some 1, retry := 0, connected := true, readyState := 1, errorFlag := false }
      "open" none
  else s

/-- The `onerror` callback: the transport reports `esReadyNow` as its
`readyState`; the state and `error` subscribers are updated, and a
reconnect is scheduled only when the transport is genuinely `CLOSED`. -/
def handleError (cfg : HookConfig) (beh : Nat → Bool) (s : Hook) (esReadyNow : Nat) : Hook :=
  if s.es.isSome = true then
    let s1 := emit beh
      { s with
        es := some esReadyNow, connected := false, readyState := esReadyNow,
        errorFlag := true }
      "error" none
    if esReadyNow = 2 then scheduleReconnect cfg s1 else s1
  else s

/-- The `onmessage` callback for unnamed frames: parse the payload, update
the last-event fields (a falsy frame id keeps the previous `lastEventId`)
and notify the `message` subscribers. -/
def handleMessage (beh : Nat → Bool) (parse : String → Json) (s : Hook)
    (evId : Option String) (raw : String) : Hook :=
  if s.es = some 1 then
    let data := parse raw
    emit beh
      { s with
        lastEventId := if jsTruthyStr evId then evId else s.lastEventId,
        lastEventName := some "message", lastData := some data }
      "message" (some data)
  else s

/-- Arrival of a named frame on the open transport.  The browser delivers
it only to listeners registered on the current `EventSource` object via
`addEventListener`, i.e. only when the name is in the attached set — in
that case the dispatch closure from `addListener` runs: parse, update the
last-event fields and notify that name's subscribers.  With no attached
listener the frame is dropped by the transport. -/
def handleNamed (beh : Nat → Bool) (parse : String → Json) (s : Hook)
    (name : String) (evId : Option String) (raw : String) : Hook :=
  if s.es = some 1 ∧ name ∈ s.attached then
    let data := parse raw
    emit beh
      { s with
        lastEventId := if jsTruthyStr evId then evId else s.lastEventId,
        lastEventName := some name, lastData := some data }
      name (some data)
  else s

/-- The sources of activity on one hook instance. -/
inductive HookEv where
  | subscribe (name : String) (hid : Nat) : HookEv
  | unsubscribe (name : String) (hid : Nat) : HookEv
  | connectCall : HookEv
  | disconnectCall : HookEv
  | openEv : HookEv
  | errorEv (esReadyNow : Nat) : HookEv
  | messageEv (evId : Option String) (raw : String) : HookEv
  | namedEv (name : String) (evId : Option String) (raw : String) : HookEv
  | timerFireEv : HookEv
deriving DecidableEq

/-- One step of the hook.  A firing reconnect timer simply calls
`connect` (the timeout is spent, so it is no longer pending). -/
def stepHook (cfg : HookConfig) (beh : Nat → Bool) (parse : String → Json)
    (s : Hook) : HookEv → Hook
  | HookEv.subscribe name hid => addListener s name hid
  | HookEv.unsubscribe name hid => removeListener s name hid
  | HookEv.connectCall => connect s
  | HookEv.disconnectCall => disconnect s
  | HookEv.openEv => handleOpen beh s
  | HookEv.errorEv rs => handleError cfg beh s rs
  | HookEv.messageEv evId raw => handleMessage beh parse s evId raw
  | HookEv.namedEv name evId raw => handleNamed beh parse s name evId raw
  | HookEv.timerFireEv =>
      if s.timerPending = true then connect { s with timerPending := false } else s

/-- Run a list of hook events. -/
def runHook (cfg : HookConfig) (beh : Nat → Bool) (parse : String → Json)
    (s : Hook) (evs : List HookEv) : Hook :=
  evs.foldl (stepHook cfg beh parse) s

/-- The default reconnect configuration of the hook. -/
def defaultHookConfig : HookConfig := {}

/-- A handler environment in which no subscriber throws. -/
def behOk : Nat → Bool := fun _ => false

/-- A parser that is irrelevant to the property under test. -/
def parseNull : String → Json := fun _ => Json.null

/-- `n` consecutive connection-failure cycles: the transport errors in the
`CLOSED` state, then the armed reconnect timer (if any) fires. -/
def failureCycles : Nat → List HookEv
  | 0 => []
  | n + 1 => failureCycles n ++ [HookEv.errorEv 2, HookEv.timerFireEv]

/-- Projection facts of a run of consecutive failure cycles under the
default configuration, counted from a fresh backoff state. -/
def FailInv (n : Nat) (s : Hook) : Prop :=
  s.retry = min n 10
  ∧ s.scheduled = (List.range (min n 10)).map (fun k => min (1000 * 2 ^ k) 15000)
  ∧ s.timerPending = false
  ∧ s.destroyed = false
  ∧ s.es.isSome = true

/-- The hook state after mounting, calling `connect()` and a successful
open, with no subscribers. -/
def hookOpen : Hook := handleOpen behOk (connect (Hook.start none))

/-- The C5 scenario trace: subscribe to `connected` first, then call
`connect()`, then the transport opens and the server's `connected`
handshake frame arrives. -/
def c5Trace : List HookEv :=
  [HookEv.subscribe "connected" 1, HookEv.connectCall, HookEv.openEv,
   HookEv.namedEv "connected" none "c5payload"]

/-- The contrast trace for C5: same events, but the subscription happens
after `connect()` has created the transport object. -/
def c5LateTrace : List HookEv :=
  [HookEv.connectCall, HookEv.subscribe "connected" 1, HookEv.openEv,
   HookEv.namedEv "connected" none "c5payload"]

/-- A concrete world with three live connections of one user, for
exercising the fan-out. -/
def fanWorld : World3 :=
  { World3.init with
    byId := [("c1", ⟨"c1", some "u", none⟩), ("c2", ⟨"c2", some "u", none⟩),
             ("c3", ⟨"c3", some "u", none⟩)],
    byUser := [("u", ["c1", "c2", "c3"])] }

/-- One call into the heartbeat-variant manager.  `add` registers a client
the way the stream endpoint builds it — fresh from the request, with no
heartbeat armed yet; `tick` is one firing of an armed interval with the
dead-peer environment of that moment. -/
inductive W3Op where
  | add (cid : String) (uid : Option String) : W3Op
  | remove (cid : String) : W3Op
  | startHB (cid : String) : W3Op
  | tick (h : Nat) (failing : List String) : W3Op
  | send (cid : String) (failing : List String) (ev : SSEEvent) : W3Op
  | sendUser (uid : String) (failing : List String) (ev : SSEEvent) : W3Op

/-- Apply one manager call. -/
def applyW3 (w : World3) : W3Op → World3
  | W3Op.add cid uid => addClient3 w ⟨cid, uid, none⟩
  | W3Op.remove cid => removeClient3 w cid
  | W3Op.startHB cid => startHeartbeat3 w cid
  | W3Op.tick h failing => heartbeatTick w failing h
  | W3Op.send cid failing ev => sendToClient3 w failing cid ev
  | W3Op.sendUser uid failing ev => sendToUser3 w failing uid ev

/-- Apply a sequence of manager calls. -/
def applyW3s (w : World3) : List W3Op → World3
  | [] => w
  | op :: rest => applyW3s (applyW3 w op) rest

/-- A run in which every `add` registers an id not currently registered. -/
def freshRunW3 : World3 → List W3Op → Prop
  | _, [] => True
  | w, W3Op.add cid uid :: rest =>
      mget w.byId cid = none ∧ freshRunW3 (applyW3 w (W3Op.add cid uid)) rest
  | w, op :: rest => freshRunW3 (applyW3 w op) rest

/-- The heartbeat bookkeeping invariant: every armed handle was issued by
the counter, handles are unique, and a handle is armed for a client id
exactly when the registered client records it as its heartbeat. -/
def HBInv (w : World3) : Prop :=
  (∀ p ∈ w.timers, p.1 < w.nextTimer)
  ∧ (w.timers.map Prod.fst).Nodup
  ∧ (∀ (h : Nat) (cid : String), (h, cid) ∈ w.timers ↔
      (∃ c, mget w.byId cid = some c ∧ c.heartbeat = some h))

/-- After `disconnect()`: no transport object, no pending reconnect timer,
and the destroyed flag set. -/
def DeadState (s : Hook) : Prop :=
  s.es = none ∧ s.timerPending = false ∧ s.destroyed = true

/-- A hook with three subscribers on the event name `x`. -/
def c7Hook : Hook := { Hook.start none with listeners := [("x", [1, 2, 3])] }

/-- One registered client with no heartbeat armed yet. -/
def hbW1 : World3 := applyW3s World3.init [W3Op.add "c1" (some "u")]

/-- One registered client whose heartbeat handle 0 is armed. -/
def hbW2 : World3 := applyW3s World3.init [W3Op.add "c1" (some "u"), W3Op.startHB "c1"]

/-! ## Lemmas about the registry operations -/

theorem mget_singleton {α : Type} (k k' : String) (v : α) :
    mget [(k, v)] k' = if k = k' then some v else none := rfl

theorem clientUser_of_truthy (c : Client1) (h : jsTruthyStr c.userId = true) :
    clientUser c = some (c.userId.getD "") := by
  unfold clientUser
  rw [h]
  cases hc : c.userId with
  | none => rw [hc] at h; simp [jsTruthyStr] at h
  | some s => simp

theorem clientUser_of_falsy (c : Client1) (h : jsTruthyStr c.userId = false) :
    clientUser c = none := by
  unfold clientUser
  rw [h]
  rfl

theorem addClient_eq (r : Registry) (c : Client1) :
    addClient r c =
      if jsTruthyStr c.userId then
        { byId := mset r.byId c.id c,
          byUser := mset r.byUser (c.userId.getD "")
            (sadd ((mget r.byUser (c.userId.getD "")).getD []) c.id) }
      else
        { byId := mset r.byId c.id c, byUser := r.byUser } := by
  unfold addClient
  rfl

theorem removeClient_none (r : Registry) (cid : String) (h : mget r.byId cid = none) :
    removeClient r cid = r := by
  unfold removeClient
  rw [h]

theorem removeClient_eq (r : Registry) (cid : String) (c : Client1)
    (h : mget r.byId cid = some c) :
    removeClient r cid =
      if jsTruthyStr c.userId then
        match mget r.byUser (c.userId.getD "") with
        | none => { byId := mdel r.byId cid, byUser := r.byUser }
        | some s =>
          if (sdel s cid).length = 0 then
            { byId := mdel r.byId cid, byUser := mdel r.byUser (c.userId.getD "") }
          else
            { byId := mdel r.byId cid, byUser := mset r.byUser (c.userId.getD "") (sdel s cid) }
      else
        { byId := mdel r.byId cid, byUser := r.byUser } := by
  unfold removeClient
  rw [h]

theorem invAux_init : InvAux Registry.init := by
  refine ⟨?_, ?_, ?_⟩
  · intro uid s cid hs
    exact absurd hs (by simp [Registry.init, mget])
  · intro cid c uid hd
    exact absurd hd (by simp [Registry.init, mget])
  · intro uid s hs
    exact absurd hs (by simp [Registry.init, mget])

theorem invAux_add (r : Registry) (c : Client1) (hInv : InvAux r)
    (hfresh : mget r.byId c.id = none) : InvAux (addClient r c) := by
  obtain ⟨h2, h3, h4⟩ := hInv
  rw [addClient_eq]
  by_cases ht : jsTruthyStr c.userId = true
  · rw [if_pos ht]
    have hcu : clientUser c = some (c.userId.getD "") := clientUser_of_truthy c ht
    refine ⟨?_, ?_, ?_⟩
    · intro uid s cid hs hmem
      replace hs : mget (mset r.byUser (c.userId.getD "")
          (sadd ((mget r.byUser (c.userId.getD "")).getD []) c.id)) uid = some s := hs
      rw [mget_mset] at hs
      by_cases huu : uid = c.userId.getD ""
      · rw [if_pos huu] at hs
        injection hs with hs'
        subst hs'
        rcases (mem_sadd _ _ _).mp hmem with hin | hcid
        · cases hprev : mget r.byUser (c.userId.getD "") with
          | none => rw [hprev] at hin; simp at hin
          | some s0 =>
            rw [hprev] at hin
            simp only [Option.getD_some] at hin
            obtain ⟨d, hd, hdu⟩ := h2 (c.userId.getD "") s0 cid hprev hin
            have hne : cid ≠ c.id := fun hq => by rw [hq, hfresh] at hd; exact Option.noConfusion hd
            refine ⟨d, ?_, by rw [huu]; exact hdu⟩
            show mget (mset r.byId c.id c) cid = some d
            rw [mget_mset, if_neg hne]
            exact hd
        · subst hcid
          refine ⟨c, ?_, by rw [huu]; exact hcu⟩
          show mget (mset r.byId c.id c) c.id = some c
          rw [mget_mset, if_pos rfl]
      · rw [if_neg huu] at hs
        obtain ⟨d, hd, hdu⟩ := h2 uid s cid hs hmem
        have hne : cid ≠ c.id := fun hq => by rw [hq, hfresh] at hd; exact Option.noConfusion hd
        refine ⟨d, ?_, hdu⟩
        show mget (mset r.byId c.id c) cid = some d
        rw [mget_mset, if_neg hne]
        exact hd
    · intro cid d uid hd hdu
      replace hd : mget (mset r.byId c.id c) cid = some d := hd
      rw [mget_mset] at hd
      by_cases hcid : cid = c.id
      · subst hcid
        rw [if_pos rfl] at hd
        injection hd with hd'
        subst hd'
        rw [hcu] at hdu
        injection hdu with huid
        subst huid
        refine ⟨sadd ((mget r.byUser (c.userId.getD "")).getD []) c.id, ?_, ?_⟩
        · show mget (mset r.byUser (c.userId.getD "")
              (sadd ((mget r.byUser (c.userId.getD "")).getD []) c.id)) (c.userId.getD "")
            = some (sadd ((mget r.byUser (c.userId.getD "")).getD []) c.id)
          rw [mget_mset, if_pos rfl]
        · exact (mem_sadd _ _ _).mpr (Or.inr rfl)
      · rw [if_neg hcid] at hd
        obtain ⟨s, hs, hmem⟩ := h3 cid d uid hd hdu
        by_cases huu : uid = c.userId.getD ""
        · refine ⟨sadd ((mget r.byUser (c.userId.getD "")).getD []) c.id, ?_, ?_⟩
          · show mget (mset r.byUser (c.userId.getD "")
                (sadd ((mget r.byUser (c.userId.getD "")).getD []) c.id)) uid
              = some (sadd ((mget r.byUser (c.userId.getD "")).getD []) c.id)
            rw [mget_mset, if_pos huu]
          · rw [huu] at hs
            have hpr : ((mget r.byUser (c.userId.getD "")).getD []) = s := by rw [hs]; rfl
            rw [hpr]
            exact (mem_sadd _ _ _).mpr (Or.inl hmem)
        · refine ⟨s, ?_, hmem⟩
          show mget (mset r.byUser (c.userId.getD "")
              (sadd ((mget r.byUser (c.userId.getD "")).getD []) c.id)) uid = some s
          rw [mget_mset, if_neg huu]
          exact hs
    · intro uid s hs
      replace hs : mget (mset r.byUser (c.userId.getD "")
          (sadd ((mget r.byUser (c.userId.getD "")).getD []) c.id)) uid = some s := hs
      rw [mget_mset] at hs
      by_cases huu : uid = c.userId.getD ""
      · rw [if_pos huu] at hs
        injection hs with hs'
        subst hs'
        by_cases hmem : c.id ∈ ((mget r.byUser (c.userId.getD "")).getD [])
        · unfold sadd
          rw [if_pos hmem]
          intro hemp
          rw [hemp] at hmem
          simp at hmem
        · unfold sadd
          rw [if_neg hmem]
          simp
      · rw [if_neg huu] at hs
        exact h4 uid s hs
  · rw [if_neg ht]
    have htf : jsTruthyStr c.userId = false := by
      revert ht; cases jsTruthyStr c.userId <;> simp
    have hcu : clientUser c = none := clientUser_of_falsy c htf
    refine ⟨?_, ?_, ?_⟩
    · intro uid s cid hs hmem
      obtain ⟨d, hd, hdu⟩ := h2 uid s cid hs hmem
      have hne : cid ≠ c.id := fun hq => by rw [hq, hfresh] at hd; exact Option.noConfusion hd
      refine ⟨d, ?_, hdu⟩
      show mget (mset r.byId c.id c) cid = some d
      rw [mget_mset, if_neg hne]
      exact hd
    · intro cid d uid hd hdu
      replace hd : mget (mset r.byId c.id c) cid = some d := hd
      rw [mget_mset] at hd
      by_cases hcid : cid = c.id
      · rw [if_pos hcid] at hd
        injection hd with hd'
        subst hd'
        rw [hcu] at hdu
        exact Option.noConfusion hdu
      · rw [if_neg hcid] at hd
        exact h3 cid d uid hd hdu
    · exact h4

theorem invAux_remove (r : Registry) (cid : String) (hInv : InvAux r) :
    InvAux (removeClient r cid) := by
  obtain ⟨h2, h3, h4⟩ := hInv
  cases hc : mget r.byId cid with
  | none =>
    rw [removeClient_none r cid hc]
    exact ⟨h2, h3, h4⟩
  | some c =>
    rw [removeClient_eq r cid c hc]
    by_cases ht : jsTruthyStr c.userId = true
    · rw [if_pos ht]
      have hcu : clientUser c = some (c.userId.getD "") := clientUser_of_truthy c ht
      cases hu : mget r.byUser (c.userId.getD "") with
      | none =>
        obtain ⟨s, hs, _⟩ := h3 cid c _ hc hcu
        rw [hu] at hs
        exact Option.noConfusion hs
      | some s0 =>
        show InvAux (if (sdel s0 cid).length = 0 then
            { byId := mdel r.byId cid, byUser := mdel r.byUser (c.userId.getD "") }
          else
            { byId := mdel r.byId cid, byUser := mset r.byUser (c.userId.getD "") (sdel s0 cid) })
        by_cases hz : (sdel s0 cid).length = 0
        · rw [if_pos hz]
          refine ⟨?_, ?_, ?_⟩
          · intro uid s cid' hs hmem
            replace hs : mget (mdel r.byUser (c.userId.getD "")) uid = some s := hs
            rw [mget_mdel] at hs
            by_cases huu : uid = c.userId.getD ""
            · rw [if_pos huu] at hs
              exact Option.noConfusion hs
            · rw [if_neg huu] at hs
              obtain ⟨d, hd, hdu⟩ := h2 uid s cid' hs hmem
              have hne : cid' ≠ cid := by
                intro hq
                subst hq
                rw [hc] at hd
                injection hd with hd'
                subst hd'
                rw [hcu] at hdu
                injection hdu with hq2
                exact huu hq2.symm
              refine ⟨d, ?_, hdu⟩
              show mget (mdel r.byId cid) cid' = some d
              rw [mget_mdel, if_neg hne]
              exact hd
          · intro cid' d uid hd hdu
            replace hd : mget (mdel r.byId cid) cid' = some d := hd
            rw [mget_mdel] at hd
            by_cases hne : cid' = cid
            · rw [if_pos hne] at hd
              exact Option.noConfusion hd
            · rw [if_neg hne] at hd
              obtain ⟨s, hs, hmem⟩ := h3 cid' d uid hd hdu
              by_cases huu : uid = c.userId.getD ""
              · subst huu
                rw [hu] at hs
                injection hs with hs'
                subst hs'
                have hmem' : cid' ∈ sdel s0 cid := (mem_sdel _ _ _).mpr ⟨hmem, hne⟩
                have hnil : sdel s0 cid = [] := List.length_eq_zero.mp hz
                rw [hnil] at hmem'
                simp at hmem'
              · refine ⟨s, ?_, hmem⟩
                show mget (mdel r.byUser (c.userId.getD "")) uid = some s
                rw [mget_mdel, if_neg huu]
                exact hs
          · intro uid s hs
            replace hs : mget (mdel r.byUser (c.userId.getD "")) uid = some s := hs
            rw [mget_mdel] at hs
            by_cases huu : uid = c.userId.getD ""
            · rw [if_pos huu] at hs
              exact Option.noConfusion hs
            · rw [if_neg huu] at hs
              exact h4 uid s hs
        · rw [if_neg hz]
          refine ⟨?_, ?_, ?_⟩
          · intro uid s cid' hs hmem
            replace hs : mget (mset r.byUser (c.userId.getD "") (sdel s0 cid)) uid = some s := hs
            rw [mget_mset] at hs
            by_cases huu : uid = c.userId.getD ""
            · rw [if_pos huu] at hs
              injection hs with hs'
              subst hs'
              obtain ⟨hmem0, hne⟩ := (mem_sdel _ _ _).mp hmem
              obtain ⟨d, hd, hdu⟩ := h2 (c.userId.getD "") s0 cid' hu hmem0
              refine ⟨d, ?_, by rw [huu]; exact hdu⟩
              show mget (mdel r.byId cid) cid' = some d
              rw [mget_mdel, if_neg hne]
              exact hd
            · rw [if_neg huu] at hs
              obtain ⟨d, hd, hdu⟩ := h2 uid s cid' hs hmem
              have hne : cid' ≠ cid := by
                intro hq
                subst hq
                rw [hc] at hd
                injection hd with hd'
                subst hd'
                rw [hcu] at hdu
                injection hdu with hq2
                exact huu hq2.symm
              refine ⟨d, ?_, hdu⟩
              show mget (mdel r.byId cid) cid' = some d
              rw [mget_mdel, if_neg hne]
              exact hd
          · intro cid' d uid hd hdu
            replace hd : mget (mdel r.byId cid) cid' = some d := hd
            rw [mget_mdel] at hd
            by_cases hne : cid' = cid
            · rw [if_pos hne] at hd
              exact Option.noConfusion hd
            · rw [if_neg hne] at hd
              obtain ⟨s, hs, hmem⟩ := h3 cid' d uid hd hdu
              by_cases huu : uid = c.userId.getD ""
              · subst huu
                rw [hu] at hs
                injection hs with hs'
                subst hs'
                refine ⟨sdel s0 cid, ?_, (mem_sdel _ _ _).mpr ⟨hmem, hne⟩⟩
                show mget (mset r.byUser (c.userId.getD "") (sdel s0 cid)) (c.userId.getD "")
                  = some (sdel s0 cid)
                rw [mget_mset, if_pos rfl]
              · refine ⟨s, ?_, hmem⟩
                show mget (mset r.byUser (c.userId.getD "") (sdel s0 cid)) uid = some s
                rw [mget_mset, if_neg huu]
                exact hs
          · intro uid s hs
            replace hs : mget (mset r.byUser (c.userId.getD "") (sdel s0 cid)) uid = some s := hs
            rw [mget_mset] at hs
            by_cases huu : uid = c.userId.getD ""
            · rw [if_pos huu] at hs
              injection hs with hs'
              subst hs'
              intro hemp
              rw [hemp] at hz
              simp at hz
            · rw [if_neg huu] at hs
              exact h4 uid s hs
    · rw [if_neg ht]
      have htf : jsTruthyStr c.userId = false := by
        revert ht; cases jsTruthyStr c.userId <;> simp
      have hcu : clientUser c = none := clientUser_of_falsy c htf
      refine ⟨?_, ?_, ?_⟩
      · intro uid s cid' hs hmem
        obtain ⟨d, hd, hdu⟩ := h2 uid s cid' hs hmem
        have hne : cid' ≠ cid := by
          intro hq
          subst hq
          rw [hc] at hd
          injection hd with hd'
          subst hd'
          rw [hcu] at hdu
          exact Option.noConfusion hdu
        refine ⟨d, ?_, hdu⟩
        show mget (mdel r.byId cid) cid' = some d
        rw [mget_mdel, if_neg hne]
        exact hd
      · intro cid' d uid hd hdu
        replace hd : mget (mdel r.byId cid) cid' = some d := hd
        rw [mget_mdel] at hd
        by_cases hne : cid' = cid
        · rw [if_pos hne] at hd
          exact Option.noConfusion hd
        · rw [if_neg hne] at hd
          exact h3 cid' d uid hd hdu
      · exact h4

theorem invAux_run (ops : List RegOp) :
    ∀ r, InvAux r → freshRun r ops → InvAux (applyOps r ops) := by
  induction ops with
  | nil => intro r h _; exact h
  | cons op rest ih =>
    intro r h hfresh
    cases op with
    | add c =>
      obtain ⟨hf, hrest⟩ := hfresh
      exact ih (addClient r c) (invAux_add r c h hf) hrest
    | remove cid =>
      exact ih (removeClient r cid) (invAux_remove r cid h) hfresh

theorem regInv_of_invAux (r : Registry) (h : InvAux r) : RegInv r := by
  obtain ⟨h2, h3, h4⟩ := h
  refine ⟨?_, ?_, h3, h4⟩
  · intro uid
    constructor
    · intro hk
      cases hs : mget r.byUser uid with
      | none => rw [hs] at hk; simp at hk
      | some s =>
        cases s with
        | nil => exact absurd rfl (h4 uid [] hs)
        | cons x xs =>
          obtain ⟨d, hd, hdu⟩ := h2 uid (x :: xs) x hs (by simp)
          exact ⟨x, d, hd, hdu⟩
    · rintro ⟨cid, c, hd, hdu⟩
      obtain ⟨s, hs, _⟩ := h3 cid c uid hd hdu
      rw [hs]
      rfl
  · intro uid s cid hs hmem
    obtain ⟨d, hd, _⟩ := h2 uid s cid hs hmem
    rw [hd]
    rfl

/-! ## Claim theorems: the frame codec -/

/-- C4: `formatSSE` emits the `id:` line, `event:` line, `retry:` line and
`data:` line in exactly that order, each omitted entirely when the field is
absent; a string payload passes through verbatim and a non-string payload
is JSON-serialized; the frame always ends with the terminating blank line;
and `encodeEvent({})` with all fields absent is exactly the terminating
blank line with no field lines. -/
theorem C4_frame_codec :
    (∀ ev : SSEEvent,
        formatSSE ev = idPart ev ++ eventPart ev ++ retryPart ev ++ dataPart ev ++ "\n")
  ∧ (∀ ev : SSEEvent, ev.id = none → idPart ev = "")
  ∧ (∀ ev : SSEEvent, ev.event = none → eventPart ev = "")
  ∧ (∀ ev : SSEEvent, ev.retry = none → retryPart ev = "")
  ∧ (∀ ev : SSEEvent, ev.data = none → dataPart ev = "")
  ∧ (∀ (ev : SSEEvent) (s : String),
        ev.data = some (Json.str s) → dataPart ev = "data: " ++ s ++ "\n")
  ∧ (∀ (ev : SSEEvent) (d : Json), ev.data = some d → (∀ s, d ≠ Json.str s) →
        dataPart ev = "data: " ++ Json.stringify d ++ "\n")
  ∧ formatSSE {} = "\n" := by
  refine ⟨?_, ?_, ?_, ?_, ?_, ?_, ?_, rfl⟩
  · intro ev
    unfold formatSSE idPart eventPart retryPart dataPart
    cases hd : ev.data <;>
      by_cases h1 : jsTruthyStr ev.id <;>
        by_cases h2 : jsTruthyStr ev.event <;>
          by_cases h3 : jsTruthyNum ev.retry <;>
            simp [h1, h2, h3, ← String.append_assoc, String.empty_append, String.append_empty]
  · intro ev h
    unfold idPart
    rw [h]
    rfl
  · intro ev h
    unfold eventPart
    rw [h]
    rfl
  · intro ev h
    unfold retryPart
    rw [h]
    rfl
  · intro ev h
    unfold dataPart
    rw [h]
  · intro ev s h
    unfold dataPart
    rw [h]
    rfl
  · intro ev d h hns
    unfold dataPart
    rw [h]
    cases d with
    | str s => exact absurd rfl (hns s)
    | null => rfl
    | bool b => rfl
    | num n => rfl
    | arr xs => rfl
    | obj fs => rfl

/-- C4 witness: concrete frames exercising each hypothesis-bearing part of
the codec theorem. -/
theorem C4_frame_codec_witness :
    idPart { event := some "x" } = ""
    ∧ eventPart {} = ""
    ∧ retryPart {} = ""
    ∧ dataPart {} = ""
    ∧ dataPart { data := some (Json.str "hello") } = "data: " ++ "hello" ++ "\n"
    ∧ dataPart { data := some (Json.obj [("a", Json.num 1)]) }
        = "data: " ++ Json.stringify (Json.obj [("a", Json.num 1)]) ++ "\n"
    ∧ formatSSE { event := some "x", data := some (Json.obj [("a", Json.num 1)]) }
        = idPart { event := some "x", data := some (Json.obj [("a", Json.num 1)]) }
          ++ eventPart { event := some "x", data := some (Json.obj [("a", Json.num 1)]) }
          ++ retryPart { event := some "x", data := some (Json.obj [("a", Json.num 1)]) }
          ++ dataPart { event := some "x", data := some (Json.obj [("a", Json.num 1)]) }
          ++ "\n" :=
  ⟨C4_frame_codec.2.1 { event := some "x" } rfl,
   C4_frame_codec.2.2.1 {} rfl,
   C4_frame_codec.2.2.2.1 {} rfl,
   C4_frame_codec.2.2.2.2.1 {} rfl,
   C4_frame_codec.2.2.2.2.2.1 { data := some (Json.str "hello") } "hello" rfl,
   C4_frame_codec.2.2.2.2.2.2.1 { data := some (Json.obj [("a", Json.num 1)]) }
     (Json.obj [("a", Json.num 1)]) rfl (fun _ h => Json.noConfusion h),
   C4_frame_codec.1 { event := some "x", data := some (Json.obj [("a", Json.num 1)]) }⟩

/-- C10: the codec omits a field's line whenever its value is falsy, not
only when it is absent — `retry: 0`, an empty `id` and an empty `event`
all produce no line — while `data` is omitted only when strictly
`undefined`, so a `null` payload produces the line `data: null`. -/
theorem C10_falsy_omission :
    (∀ ev : SSEEvent, ev.retry = some 0 → formatSSE ev = formatSSE { ev with retry := none })
  ∧ (∀ ev : SSEEvent, ev.id = some "" → formatSSE ev = formatSSE { ev with id := none })
  ∧ (∀ ev : SSEEvent, ev.event = some "" → formatSSE ev = formatSSE { ev with event := none })
  ∧ (∀ (ev : SSEEvent) (d : Json), ev.data = some d →
      formatSSE ev = idPart ev ++ eventPart ev ++ retryPart ev
        ++ ("data: " ++ serializeData d ++ "\n") ++ "\n")
  ∧ serializeData Json.null = "null"
  ∧ formatSSE { data := some Json.null } = "data: null\n\n"
  ∧ formatSSE { id := some "", event := some "", retry := some 0 } = "\n" := by
  refine ⟨?_, ?_, ?_, ?_, rfl, rfl, rfl⟩
  · intro ev h
    unfold formatSSE
    rw [h]
    rfl
  · intro ev h
    unfold formatSSE
    rw [h]
    rfl
  · intro ev h
    unfold formatSSE
    rw [h]
    rfl
  · intro ev d h
    unfold formatSSE idPart eventPart retryPart
    rw [h]
    by_cases h1 : jsTruthyStr ev.id <;>
      by_cases h2 : jsTruthyStr ev.event <;>
        by_cases h3 : jsTruthyNum ev.retry <;>
          simp [h1, h2, h3, ← String.append_assoc, String.empty_append, String.append_empty]

/-- C10 witness: concrete frames exercising the falsy-omission equalities. -/
theorem C10_falsy_omission_witness :
    formatSSE { event := some "x", retry := some 0 }
        = formatSSE { event := some "x", retry := none }
    ∧ formatSSE { id := some "", event := some "x" }
        = formatSSE { id := none, event := some "x" }
    ∧ formatSSE { event := some "", id := some "i" }
        = formatSSE { event := none, id := some "i" }
    ∧ formatSSE { event := some "x", data := some Json.null }
        = idPart { event := some "x", data := some Json.null }
          ++ eventPart { event := some "x", data := some Json.null }
          ++ retryPart { event := some "x", data := some Json.null }
          ++ ("data: " ++ serializeData Json.null ++ "\n") ++ "\n" :=
  ⟨C10_falsy_omission.1 { event := some "x", retry := some 0 } rfl,
   C10_falsy_omission.2.1 { id := some "", event := some "x" } rfl,
   C10_falsy_omission.2.2.1 { event := some "", id := some "i" } rfl,
   C10_falsy_omission.2.2.2.1 { event := some "x", data := some Json.null } Json.null rfl⟩

/-! ## Claim theorems: the connection registry -/

/-- C1 (counterexample): re-registering a live connection id under another
user — the last-writer-wins overwrite — leaves a `byUser` key for a user id
that no registered connection carries any more, so the claimed invariant
fails after an `addClient`/`addClient` sequence. -/
theorem C1_cross_invariant_counterexample : ¬ RegInv dupRegistry := by
  rintro ⟨h1, -, -, -⟩
  obtain ⟨cid, c, hd, hdu⟩ := (h1 "u1").mp (by rfl)
  have hbyId : dupRegistry.byId = [("a", ⟨"a", some "u2"⟩)] := rfl
  rw [hbyId, mget_singleton] at hd
  by_cases hca : "a" = cid
  · rw [if_pos hca] at hd
    injection hd with hd'
    subst hd'
    have hcu : clientUser (⟨"a", some "u2"⟩ : Client1) = some "u2" := rfl
    rw [hcu] at hdu
    injection hdu with hq
    exact absurd hq (by decide)
  · rw [if_neg hca] at hd
    exact Option.noConfusion hd

/-- C1 (amended): for every sequence of `addClient`/`removeClient` calls in
which each `addClient` uses an id that is not registered at the moment of
the call, after each call the registry satisfies the cross-invariant: a
user-id key exists in `byUser` iff at least one registered connection
currently has that user id (empty sets are pruned immediately), every
connection-id in any `byUser` set is a key of `byId`, and every registered
connection with a user id is a member of that user's set. -/
theorem C1_cross_invariant (ops : List RegOp) (h : freshRun Registry.init ops) :
    RegInv (applyOps Registry.init ops) :=
  regInv_of_invAux _ (invAux_run ops Registry.init invAux_init h)

/-- C1 witness: a concrete fresh-id run of two registrations for one user
followed by one removal satisfies the invariant. -/
theorem C1_cross_invariant_witness :
    freshRun Registry.init
      [RegOp.add ⟨"a", some "u"⟩, RegOp.add ⟨"b", some "u"⟩, RegOp.remove "a"]
    ∧ RegInv (applyOps Registry.init
        [RegOp.add ⟨"a", some "u"⟩, RegOp.add ⟨"b", some "u"⟩, RegOp.remove "a"]) := by
  have hfresh : freshRun Registry.init
      [RegOp.add ⟨"a", some "u"⟩, RegOp.add ⟨"b", some "u"⟩, RegOp.remove "a"] :=
    ⟨rfl, rfl, trivial⟩
  exact ⟨hfresh, C1_cross_invariant _ hfresh⟩

/-- C2: `removeClient` is idempotent — a second removal of the same id
leaves the registry maps exactly as the first left them — and removal of
an unknown id is a no-op.  (As a total Lean function the modelled
`removeClient` also cannot throw.) -/
theorem C2_removeClient_idempotent (r : Registry) (cid : String) :
    removeClient (removeClient r cid) cid = removeClient r cid
    ∧ (mget r.byId cid = none → removeClient r cid = r) := by
  constructor
  · cases hc : mget r.byId cid with
    | none => rw [removeClient_none r cid hc, removeClient_none r cid hc]
    | some c =>
      have h2 : mget (removeClient r cid).byId cid = none := by
        rw [removeClient_eq r cid c hc]
        by_cases ht : jsTruthyStr c.userId = true
        · rw [if_pos ht]
          cases hu : mget r.byUser (c.userId.getD "") with
          | none =>
            show mget (mdel r.byId cid) cid = none
            rw [mget_mdel, if_pos rfl]
          | some s =>
            show mget (if (sdel s cid).length = 0 then
                { byId := mdel r.byId cid, byUser := mdel r.byUser (c.userId.getD "") }
              else
                ({ byId := mdel r.byId cid,
                   byUser := mset r.byUser (c.userId.getD "") (sdel s cid) } : Registry)).byId
              cid = none
            by_cases hz : (sdel s cid).length = 0
            · rw [if_pos hz]
              show mget (mdel r.byId cid) cid = none
              rw [mget_mdel, if_pos rfl]
            · rw [if_neg hz]
              show mget (mdel r.byId cid) cid = none
              rw [mget_mdel, if_pos rfl]
        · rw [if_neg ht]
          show mget (mdel r.byId cid) cid = none
          rw [mget_mdel, if_pos rfl]
      exact removeClient_none _ cid h2
  · intro h
    exact removeClient_none r cid h

/-- C2 witness: double removal of the registered id `"a"` equals single
removal, and removing the unknown id `"zzz"` is a no-op, on the concrete
two-entry registry. -/
theorem C2_removeClient_idempotent_witness :
    removeClient (removeClient dupRegistry "a") "a" = removeClient dupRegistry "a"
    ∧ removeClient dupRegistry "zzz" = dupRegistry :=
  ⟨(C2_removeClient_idempotent dupRegistry "a").1,
   (C2_removeClient_idempotent dupRegistry "zzz").2 rfl⟩

/-! ## Lemmas about the heartbeat-variant manager -/

theorem removeClient3_none (w : World3) (cid : String) (h : mget w.byId cid = none) :
    removeClient3 w cid = w := by
  unfold removeClient3
  rw [h]

theorem removeClient3_found_core (w : World3) (cid : String) (c : Client3)
    (h : mget w.byId cid = some c) :
    (removeClient3 w cid).byId = mdel w.byId cid
    ∧ (removeClient3 w cid).timers =
        (match c.heartbeat with
         | none => w.timers
         | some hh => w.timers.filter (fun t => t.1 ≠ hh))
    ∧ (removeClient3 w cid).nextTimer = w.nextTimer
    ∧ (removeClient3 w cid).attempts = w.attempts
    ∧ (removeClient3 w cid).writes = w.writes := by
  unfold removeClient3
  rw [h]
  dsimp only
  split
  · split
    · exact ⟨rfl, rfl, rfl, rfl, rfl⟩
    · split
      · exact ⟨rfl, rfl, rfl, rfl, rfl⟩
      · exact ⟨rfl, rfl, rfl, rfl, rfl⟩
  · exact ⟨rfl, rfl, rfl, rfl, rfl⟩

theorem sendToClient3_missing (w : World3) (failing : List String) (cid : String)
    (ev : SSEEvent) (h : mget w.byId cid = none) :
    sendToClient3 w failing cid ev = w := by
  unfold sendToClient3
  rw [h]

theorem sendToClient3_found_fail (w : World3) (failing : List String) (cid : String)
    (ev : SSEEvent) (c : Client3) (h : mget w.byId cid = some c) (hf : cid ∈ failing) :
    sendToClient3 w failing cid ev
      = removeClient3 { w with attempts := w.attempts ++ [cid] } cid := by
  unfold sendToClient3
  rw [h]
  rw [if_pos hf]

theorem sendToClient3_found_ok (w : World3) (failing : List String) (cid : String)
    (ev : SSEEvent) (c : Client3) (h : mget w.byId cid = some c) (hf : cid ∉ failing) :
    sendToClient3 w failing cid ev
      = { w with
          attempts := w.attempts ++ [cid],
          writes := w.writes ++ [(cid, formatSSE ev)] } := by
  unfold sendToClient3
  rw [h]
  rw [if_neg hf]

theorem removeClient3_byId_other (w : World3) (cid x : String) (hne : x ≠ cid) :
    mget (removeClient3 w cid).byId x = mget w.byId x := by
  cases hc : mget w.byId cid with
  | none => rw [removeClient3_none w cid hc]
  | some c =>
    rw [(removeClient3_found_core w cid c hc).1, mget_mdel, if_neg hne]

theorem sendFold_spec (failing : List String) (ev : SSEEvent) (ids : List String) :
    ∀ w : World3, ids.Nodup → (∀ cid ∈ ids, (mget w.byId cid).isSome = true) →
      ((ids.foldl (fun acc cid => sendToClient3 acc failing cid ev) w).attempts
          = w.attempts ++ ids
       ∧ (ids.foldl (fun acc cid => sendToClient3 acc failing cid ev) w).writes
          = w.writes ++ (ids.filter (fun cid => decide (cid ∉ failing))).map
              (fun cid => (cid, formatSSE ev))) := by
  induction ids with
  | nil =>
    intro w _ _
    exact ⟨by simp, by simp⟩
  | cons cid rest ih =>
    intro w hnd hreg
    have hc := hreg cid (by simp)
    cases hcc : mget w.byId cid with
    | none => rw [hcc] at hc; simp at hc
    | some c =>
      rw [List.foldl_cons]
      by_cases hf : cid ∈ failing
      · rw [sendToClient3_found_fail w failing cid ev c hcc hf]
        have hrest : ∀ x ∈ rest,
            (mget (removeClient3 { w with attempts := w.attempts ++ [cid] } cid).byId x).isSome
              = true := by
          intro x hx
          have hne : x ≠ cid := by
            intro hq
            subst hq
            exact (List.nodup_cons.mp hnd).1 hx
          rw [removeClient3_byId_other _ _ _ hne]
          exact hreg x (by simp [hx])
        obtain ⟨ha, hw⟩ := ih (removeClient3 { w with attempts := w.attempts ++ [cid] } cid)
          (List.nodup_cons.mp hnd).2 hrest
        have hlog := removeClient3_found_core { w with attempts := w.attempts ++ [cid] } cid c hcc
        constructor
        · rw [ha, hlog.2.2.2.1]
          simp
        · rw [hw, hlog.2.2.2.2]
          simp [List.filter_cons, hf]
      · rw [sendToClient3_found_ok w failing cid ev c hcc hf]
        have hrest : ∀ x ∈ rest,
            (mget ({ w with
              attempts := w.attempts ++ [cid],
              writes := w.writes ++ [(cid, formatSSE ev)] } : World3).byId x).isSome = true := by
          intro x hx
          exact hreg x (by simp [hx])
        obtain ⟨ha, hw⟩ := ih _ (List.nodup_cons.mp hnd).2 hrest
        constructor
        · rw [ha]
          simp
        · rw [hw]
          simp [List.filter_cons, hf]

/-! ## Claim theorems: fan-out to a user -/

/-- C6: `sendToUser` with an unknown user id is a silent no-op; for a user
with a registered set of connections the target set is snapshotted at call
time and every member is attempted exactly once — even when some
connections' writes fail mid-fan-out (dead peers get removed, yet every
other send is still attempted, and every non-failing send completes with
its frame written).  The modelled operation is total, so no exception
reaches the caller. -/
theorem C6_sendToUser_fanout :
    (∀ (w : World3) (failing : List String) (uid : String) (ev : SSEEvent),
        mget w.byUser uid = none → sendToUser3 w failing uid ev = w)
  ∧ (∀ (w : World3) (failing : List String) (uid : String) (ev : SSEEvent) (ids : List String),
        mget w.byUser uid = some ids →
        ids.Nodup →
        (∀ cid ∈ ids, (mget w.byId cid).isSome = true) →
        (sendToUser3 w failing uid ev).attempts = w.attempts ++ ids
        ∧ (sendToUser3 w failing uid ev).writes
            = w.writes ++ (ids.filter (fun cid => decide (cid ∉ failing))).map
                (fun cid => (cid, formatSSE ev))) := by
  constructor
  · intro w failing uid ev h
    unfold sendToUser3
    rw [h]
  · intro w failing uid ev ids h hnd hreg
    unfold sendToUser3
    rw [h]
    exact sendFold_spec failing ev ids w hnd hreg

/-- C6 witness: user `u` has three connections and `c2`'s peer is dead:
all three sends are attempted, the two live sends complete, and an unknown
user id is a silent no-op. -/
theorem C6_sendToUser_fanout_witness :
    sendToUser3 fanWorld [] "nobody" { event := some "x" } = fanWorld
    ∧ (sendToUser3 fanWorld ["c2"] "u" { event := some "x" }).attempts
        = fanWorld.attempts ++ ["c1", "c2", "c3"]
    ∧ (sendToUser3 fanWorld ["c2"] "u" { event := some "x" }).writes
        = fanWorld.writes
          ++ ((["c1", "c2", "c3"].filter (fun cid => decide (cid ∉ (["c2"] : List String)))).map
              (fun cid => (cid, formatSSE { event := some "x" }))) :=
  ⟨C6_sendToUser_fanout.1 fanWorld [] "nobody" { event := some "x" } rfl,
   (C6_sendToUser_fanout.2 fanWorld ["c2"] "u" { event := some "x" } ["c1", "c2", "c3"]
      rfl (by decide) (by decide)).1,
   (C6_sendToUser_fanout.2 fanWorld ["c2"] "u" { event := some "x" } ["c1", "c2", "c3"]
      rfl (by decide) (by decide)).2⟩

/-! ## Lemmas about the heartbeat timers -/

theorem startHeartbeat3_none (w : World3) (cid : String) (h : mget w.byId cid = none) :
    startHeartbeat3 w cid = w := by
  unfold startHeartbeat3
  rw [h]

theorem startHeartbeat3_arm (w : World3) (cid : String) (c : Client3)
    (h : mget w.byId cid = some c) (hhb : c.heartbeat = none) :
    startHeartbeat3 w cid = { w with
      byId := mset w.byId cid { c with heartbeat := some w.nextTimer },
      timers := w.timers ++ [(w.nextTimer, cid)],
      nextTimer := w.nextTimer + 1 } := by
  unfold startHeartbeat3
  rw [h]
  dsimp only
  rw [hhb]

theorem startHeartbeat3_rearm (w : World3) (cid : String) (c : Client3) (h0 : Nat)
    (h : mget w.byId cid = some c) (hhb : c.heartbeat = some h0) :
    startHeartbeat3 w cid = { w with
      byId := mset w.byId cid { c with heartbeat := some w.nextTimer },
      timers := w.timers.filter (fun t => t.1 ≠ h0) ++ [(w.nextTimer, cid)],
      nextTimer := w.nextTimer + 1 } := by
  unfold startHeartbeat3
  rw [h]
  dsimp only
  rw [hhb]

theorem timerOwner_unique (l : List (Nat × String)) (hnd : (l.map Prod.fst).Nodup)
    (h : Nat) (a b : String) (ha : (h, a) ∈ l) (hb : (h, b) ∈ l) : a = b := by
  induction l with
  | nil => simp at ha
  | cons p rest ih =>
    rw [List.map_cons, List.nodup_cons] at hnd
    rcases List.mem_cons.mp ha with h1 | h1
    · rcases List.mem_cons.mp hb with h2 | h2
      · have heq : (h, a) = (h, b) := h1.trans h2.symm
        injection heq with _ hab
      · exfalso
        apply hnd.1
        rw [← h1]
        exact List.mem_map.mpr ⟨(h, b), h2, rfl⟩
    · rcases List.mem_cons.mp hb with h2 | h2
      · exfalso
        apply hnd.1
        rw [← h2]
        exact List.mem_map.mpr ⟨(h, a), h1, rfl⟩
      · exact ih hnd.2 h1 h2

theorem hbInv_init : HBInv World3.init := by
  refine ⟨?_, ?_, ?_⟩
  · intro p hp
    simp [World3.init] at hp
  · simp [World3.init]
  · intro h cid
    constructor
    · intro hmem
      simp [World3.init] at hmem
    · rintro ⟨c, hc, -⟩
      exact absurd hc (by simp [World3.init, mget])

theorem hbInv_remove (w : World3) (cid : String) (hInv : HBInv w) :
    HBInv (removeClient3 w cid) := by
  obtain ⟨hbound, hnd, hiff⟩ := hInv
  cases hc : mget w.byId cid with
  | none =>
    rw [removeClient3_none w cid hc]
    exact ⟨hbound, hnd, hiff⟩
  | some c =>
    obtain ⟨hbyId, htimers, hnext, -, -⟩ := removeClient3_found_core w cid c hc
    refine ⟨?_, ?_, ?_⟩
    · intro p hp
      rw [htimers] at hp
      rw [hnext]
      cases hhb : c.heartbeat with
      | none =>
        rw [hhb] at hp
        exact hbound p hp
      | some h0 =>
        rw [hhb] at hp
        exact hbound p (List.mem_of_mem_filter hp)
    · rw [htimers]
      cases hhb : c.heartbeat with
      | none => exact hnd
      | some h0 =>
        exact List.Nodup.sublist (List.Sublist.map Prod.fst (List.filter_sublist _)) hnd
    · intro h cid'
      rw [htimers, hbyId, mget_mdel]
      by_cases hq : cid' = cid
      · rw [if_pos hq]
        subst hq
        constructor
        · intro hmem
          exfalso
          cases hhb : c.heartbeat with
          | none =>
            rw [hhb] at hmem
            obtain ⟨d, hd, hdh⟩ := (hiff h cid').mp hmem
            rw [hc] at hd
            injection hd with hd'
            subst hd'
            rw [hhb] at hdh
            exact Option.noConfusion hdh
          | some h0 =>
            rw [hhb] at hmem
            have hneq : h ≠ h0 := by
              have := List.of_mem_filter hmem
              simpa using this
            obtain ⟨d, hd, hdh⟩ := (hiff h cid').mp (List.mem_of_mem_filter hmem)
            rw [hc] at hd
            injection hd with hd'
            subst hd'
            rw [hhb] at hdh
            injection hdh with hq2
            exact hneq hq2.symm
        · rintro ⟨d, hd, -⟩
          exact Option.noConfusion hd
      · rw [if_neg hq]
        constructor
        · intro hmem
          cases hhb : c.heartbeat with
          | none =>
            rw [hhb] at hmem
            exact (hiff h cid').mp hmem
          | some h0 =>
            rw [hhb] at hmem
            exact (hiff h cid').mp (List.mem_of_mem_filter hmem)
        · rintro ⟨d, hd, hdh⟩
          have hmem : (h, cid') ∈ w.timers := (hiff h cid').mpr ⟨d, hd, hdh⟩
          cases hhb : c.heartbeat with
          | none =>
            exact hmem
          | some h0 =>
            show (h, cid') ∈ w.timers.filter (fun t => t.1 ≠ h0)
            refine List.mem_filter.mpr ⟨hmem, ?_⟩
            have hne : h ≠ h0 := by
              intro hq2
              subst hq2
              have hmemc : (h, cid) ∈ w.timers := (hiff h cid).mpr ⟨c, hc, hhb⟩
              exact hq (timerOwner_unique w.timers hnd h cid' cid hmem hmemc)
            simpa using hne

theorem hbInv_add (w : World3) (cid : String) (uid : Option String) (hInv : HBInv w)
    (hf : mget w.byId cid = none) : HBInv (addClient3 w ⟨cid, uid, none⟩) := by
  obtain ⟨hbound, hnd, hiff⟩ := hInv
  have hbyId : (addClient3 w ⟨cid, uid, none⟩).byId = mset w.byId cid ⟨cid, uid, none⟩ := by
    unfold addClient3
    dsimp only
    split
    · rfl
    · rfl
  have htimers : (addClient3 w ⟨cid, uid, none⟩).timers = w.timers := by
    unfold addClient3
    dsimp only
    split
    · rfl
    · rfl
  have hnext : (addClient3 w ⟨cid, uid, none⟩).nextTimer = w.nextTimer := by
    unfold addClient3
    dsimp only
    split
    · rfl
    · rfl
  refine ⟨?_, ?_, ?_⟩
  · intro p hp
    rw [htimers] at hp
    rw [hnext]
    exact hbound p hp
  · rw [htimers]
    exact hnd
  · intro h cid'
    rw [htimers, hbyId, mget_mset]
    by_cases hq : cid' = cid
    · rw [if_pos hq]
      subst hq
      constructor
      · intro hmem
        obtain ⟨d, hd, hdh⟩ := (hiff h cid').mp hmem
        rw [hf] at hd
        exact Option.noConfusion hd
      · rintro ⟨d, hd, hdh⟩
        injection hd with hd'
        subst hd'
        exact Option.noConfusion hdh
    · rw [if_neg hq]
      exact hiff h cid'

theorem hbInv_startHB (w : World3) (cid : String) (hInv : HBInv w) :
    HBInv (startHeartbeat3 w cid) := by
  obtain ⟨hbound, hnd, hiff⟩ := hInv
  cases hc : mget w.byId cid with
  | none =>
    rw [startHeartbeat3_none w cid hc]
    exact ⟨hbound, hnd, hiff⟩
  | some c =>
    cases hhb : c.heartbeat with
    | none =>
      rw [startHeartbeat3_arm w cid c hc hhb]
      refine ⟨?_, ?_, ?_⟩
      · intro p hp
        rcases List.mem_append.mp hp with hp1 | hp1
        · exact Nat.lt_succ_of_lt (hbound p hp1)
        · have : p = (w.nextTimer, cid) := by simpa using hp1
          rw [this]
          exact Nat.lt_succ_self _
      · rw [List.map_append]
        refine List.nodup_append.mpr ⟨hnd, by simp, ?_⟩
        intro a haIn haIn2
        simp only [List.map_cons, List.map_nil, List.mem_singleton] at haIn2
        obtain ⟨p, hp, hpa⟩ := List.mem_map.mp haIn
        have := hbound p hp
        rw [hpa, haIn2] at this
        exact Nat.lt_irrefl _ this
      · intro h cid'
        rw [mget_mset]
        by_cases hq : cid' = cid
        · rw [if_pos hq]
          subst hq
          constructor
          · intro hmem
            rcases List.mem_append.mp hmem with hp1 | hp1
            · exfalso
              obtain ⟨d, hd, hdh⟩ := (hiff h cid').mp hp1
              rw [hc] at hd
              injection hd with hd'
              subst hd'
              rw [hhb] at hdh
              exact Option.noConfusion hdh
            · have heq : (h, cid') = (w.nextTimer, cid') := by simpa using hp1
              injection heq with hh
              subst hh
              exact ⟨{ c with heartbeat := some w.nextTimer }, rfl, rfl⟩
          · rintro ⟨d, hd, hdh⟩
            injection hd with hd'
            subst hd'
            have hh : some w.nextTimer = some h := hdh
            injection hh with hh'
            subst hh'
            exact List.mem_append.mpr (Or.inr (by simp))
        · rw [if_neg hq]
          constructor
          · intro hmem
            rcases List.mem_append.mp hmem with hp1 | hp1
            · exact (hiff h cid').mp hp1
            · exfalso
              have heq : (h, cid') = (w.nextTimer, cid) := by simpa using hp1
              injection heq with _ hcc
              exact hq hcc
          · rintro ⟨d, hd, hdh⟩
            exact List.mem_append.mpr (Or.inl ((hiff h cid').mpr ⟨d, hd, hdh⟩))
    | some h0 =>
      rw [startHeartbeat3_rearm w cid c h0 hc hhb]
      refine ⟨?_, ?_, ?_⟩
      · intro p hp
        rcases List.mem_append.mp hp with hp1 | hp1
        · exact Nat.lt_succ_of_lt (hbound p (List.mem_of_mem_filter hp1))
        · have : p = (w.nextTimer, cid) := by simpa using hp1
          rw [this]
          exact Nat.lt_succ_self _
      · rw [List.map_append]
        refine List.nodup_append.mpr
          ⟨List.Nodup.sublist (List.Sublist.map Prod.fst (List.filter_sublist _)) hnd,
           by simp, ?_⟩
        intro a haIn haIn2
        simp only [List.map_cons, List.map_nil, List.mem_singleton] at haIn2
        obtain ⟨p, hp, hpa⟩ := List.mem_map.mp haIn
        have := hbound p (List.mem_of_mem_filter hp)
        rw [hpa, haIn2] at this
        exact Nat.lt_irrefl _ this
      · intro h cid'
        rw [mget_mset]
        by_cases hq : cid' = cid
        · rw [if_pos hq]
          subst hq
          constructor
          · intro hmem
            rcases List.mem_append.mp hmem with hp1 | hp1
            · exfalso
              have hneq : h ≠ h0 := by
                have := List.of_mem_filter hp1
                simpa using this
              obtain ⟨d, hd, hdh⟩ := (hiff h cid').mp (List.mem_of_mem_filter hp1)
              rw [hc] at hd
              injection hd with hd'
              subst hd'
              rw [hhb] at hdh
              injection hdh with hq2
              exact hneq hq2.symm
            · have heq : (h, cid') = (w.nextTimer, cid') := by simpa using hp1
              injection heq with hh
              subst hh
              exact ⟨{ c with heartbeat := some w.nextTimer }, rfl, rfl⟩
          · rintro ⟨d, hd, hdh⟩
            injection hd with hd'
            subst hd'
            have hh : some w.nextTimer = some h := hdh
            injection hh with hh'
            subst hh'
            exact List.mem_append.mpr (Or.inr (by simp))
        · rw [if_neg hq]
          constructor
          · intro hmem
            rcases List.mem_append.mp hmem with hp1 | hp1
            · exact (hiff h cid').mp (List.mem_of_mem_filter hp1)
            · exfalso
              have heq : (h, cid') = (w.nextTimer, cid) := by simpa using hp1
              injection heq with _ hcc
              exact hq hcc
          · rintro ⟨d, hd, hdh⟩
            have hmem : (h, cid') ∈ w.timers := (hiff h cid').mpr ⟨d, hd, hdh⟩
            refine List.mem_append.mpr (Or.inl (List.mem_filter.mpr ⟨hmem, ?_⟩))
            have hne : h ≠ h0 := by
              intro hq2
              subst hq2
              have hmemc : (h, cid) ∈ w.timers := (hiff h cid).mpr ⟨c, hc, hhb⟩
              exact hq (timerOwner_unique w.timers hnd h cid' cid hmem hmemc)
            simpa using hne

theorem hbInv_tick (w : World3) (failing : List String) (hh : Nat) (hInv : HBInv w) :
    HBInv (heartbeatTick w failing hh) := by
  unfold heartbeatTick
  cases hf : w.timers.find? (fun t => t.1 = hh) with
  | none => exact hInv
  | some t =>
    show HBInv (if t.2 ∈ failing then removeClient3 w t.2
      else { w with writes := w.writes ++ [(t.2, commentFrame "ping")] })
    by_cases hd : t.2 ∈ failing
    · rw [if_pos hd]
      exact hbInv_remove w t.2 hInv
    · rw [if_neg hd]
      obtain ⟨hbound, hnd, hiff⟩ := hInv
      exact ⟨hbound, hnd, hiff⟩

theorem hbInv_send (w : World3) (failing : List String) (cid : String) (ev : SSEEvent)
    (hInv : HBInv w) : HBInv (sendToClient3 w failing cid ev) := by
  cases hc : mget w.byId cid with
  | none =>
    rw [sendToClient3_missing w failing cid ev hc]
    exact hInv
  | some c =>
    by_cases hf : cid ∈ failing
    · rw [sendToClient3_found_fail w failing cid ev c hc hf]
      exact hbInv_remove { w with attempts := w.attempts ++ [cid] } cid hInv
    · rw [sendToClient3_found_ok w failing cid ev c hc hf]
      obtain ⟨hbound, hnd, hiff⟩ := hInv
      exact ⟨hbound, hnd, hiff⟩

theorem sendFold_hbInv (failing : List String) (ev : SSEEvent) (ids : List String) :
    ∀ w, HBInv w → HBInv (ids.foldl (fun acc cid => sendToClient3 acc failing cid ev) w) := by
  induction ids with
  | nil => intro w h; exact h
  | cons cid rest ih =>
    intro w h
    rw [List.foldl_cons]
    exact ih _ (hbInv_send w failing cid ev h)

theorem hbInv_sendUser (w : World3) (failing : List String) (uid : String) (ev : SSEEvent)
    (hInv : HBInv w) : HBInv (sendToUser3 w failing uid ev) := by
  unfold sendToUser3
  cases hu : mget w.byUser uid with
  | none => exact hInv
  | some ids =>
    show HBInv (ids.foldl (fun acc cid => sendToClient3 acc failing cid ev) w)
    exact sendFold_hbInv failing ev ids w hInv

theorem hbInv_run (ops : List W3Op) :
    ∀ w, HBInv w → freshRunW3 w ops → HBInv (applyW3s w ops) := by
  induction ops with
  | nil => intro w h _; exact h
  | cons op rest ih =>
    intro w h hfresh
    cases op with
    | add cid uid =>
      obtain ⟨hf, hrest⟩ := hfresh
      exact ih _ (hbInv_add w cid uid h hf) hrest
    | remove cid => exact ih _ (hbInv_remove w cid h) hfresh
    | startHB cid => exact ih _ (hbInv_startHB w cid h) hfresh
    | tick hh failing => exact ih _ (hbInv_tick w failing hh h) hfresh
    | send cid failing ev => exact ih _ (hbInv_send w failing cid ev h) hfresh
    | sendUser uid failing ev => exact ih _ (hbInv_sendUser w failing uid ev h) hfresh

theorem hbInv_at_most_one (w : World3) (hInv : HBInv w) (cid : String) :
    (w.timers.filter (fun t => t.2 = cid)).length ≤ 1 := by
  obtain ⟨-, hnd, hiff⟩ := hInv
  cases hfil : w.timers.filter (fun t => t.2 = cid) with
  | nil => simp
  | cons x rest =>
    cases rest with
    | nil => simp
    | cons y rest2 =>
      exfalso
      have hx : x ∈ w.timers.filter (fun t => t.2 = cid) := by rw [hfil]; simp
      have hy : y ∈ w.timers.filter (fun t => t.2 = cid) := by rw [hfil]; simp
      have hxt : x ∈ w.timers := List.mem_of_mem_filter hx
      have hyt : y ∈ w.timers := List.mem_of_mem_filter hy
      have hxc : x.2 = cid := by have := List.of_mem_filter hx; simpa using this
      have hyc : y.2 = cid := by have := List.of_mem_filter hy; simpa using this
      have hxmem : (x.1, cid) ∈ w.timers := by rw [← hxc]; exact hxt
      have hymem : (y.1, cid) ∈ w.timers := by rw [← hyc]; exact hyt
      obtain ⟨cx, hcx, hcxh⟩ := (hiff x.1 cid).mp hxmem
      obtain ⟨cy, hcy, hcyh⟩ := (hiff y.1 cid).mp hymem
      have hcc : cx = cy := by
        have := hcx.symm.trans hcy
        injection this
      have hxy : x.1 = y.1 := by
        rw [hcc] at hcxh
        have := hcxh.symm.trans hcyh
        injection this
      have hndf : ((w.timers.filter (fun t => t.2 = cid)).map Prod.fst).Nodup :=
        List.Nodup.sublist (List.Sublist.map Prod.fst (List.filter_sublist _)) hnd
      rw [hfil] at hndf
      rw [List.map_cons, List.map_cons, List.nodup_cons] at hndf
      exact hndf.1 (by rw [hxy]; simp)

/-! ## Claim theorems: heartbeat timers -/

/-- C9: in every reachable state (over fresh-id runs of the manager's
operations) each connection id owns at most one armed heartbeat timer;
`startHeartbeat` on a connection with an armed timer first cancels exactly
that timer and then arms one fresh one (cancel-then-arm, never stacking),
on a connection without one it arms a single fresh timer; and a heartbeat
write failure funnels into `removeClient` — the same removal path as an
explicit disconnect. -/
theorem C9_heartbeat_single_timer :
    (∀ ops : List W3Op, freshRunW3 World3.init ops →
        ∀ cid, ((applyW3s World3.init ops).timers.filter (fun t => t.2 = cid)).length ≤ 1)
  ∧ (∀ (w : World3) (cid : String) (c : Client3) (h0 : Nat),
        mget w.byId cid = some c → c.heartbeat = some h0 →
        startHeartbeat3 w cid = { w with
          byId := mset w.byId cid { c with heartbeat := some w.nextTimer },
          timers := w.timers.filter (fun t => t.1 ≠ h0) ++ [(w.nextTimer, cid)],
          nextTimer := w.nextTimer + 1 })
  ∧ (∀ (w : World3) (cid : String) (c : Client3),
        mget w.byId cid = some c → c.heartbeat = none →
        startHeartbeat3 w cid = { w with
          byId := mset w.byId cid { c with heartbeat := some w.nextTimer },
          timers := w.timers ++ [(w.nextTimer, cid)],
          nextTimer := w.nextTimer + 1 })
  ∧ (∀ (w : World3) (failing : List String) (h : Nat) (t : Nat × String),
        w.timers.find? (fun t' => t'.1 = h) = some t → t.2 ∈ failing →
        heartbeatTick w failing h = removeClient3 w t.2) := by
  refine ⟨?_, ?_, ?_, ?_⟩
  · intro ops hfresh cid
    exact hbInv_at_most_one _ (hbInv_run ops World3.init hbInv_init hfresh) cid
  · intro w cid c h0 hc hhb
    exact startHeartbeat3_rearm w cid c h0 hc hhb
  · intro w cid c hc hhb
    exact startHeartbeat3_arm w cid c hc hhb
  · intro w failing h t hfind hdead
    unfold heartbeatTick
    rw [hfind]
    dsimp only
    rw [if_pos hdead]

/-- C9 witness: a fresh run arming the heartbeat twice on one client keeps
at most one timer; re-arming the armed client cancels handle 0 before
arming handle 1; first arming stacks nothing; and a failing tick of handle
0 with a dead peer equals `removeClient`. -/
theorem C9_heartbeat_single_timer_witness :
    freshRunW3 World3.init [W3Op.add "c1" (some "u"), W3Op.startHB "c1", W3Op.startHB "c1"]
    ∧ ((applyW3s World3.init
          [W3Op.add "c1" (some "u"), W3Op.startHB "c1", W3Op.startHB "c1"]).timers.filter
          (fun t => t.2 = "c1")).length ≤ 1
    ∧ startHeartbeat3 hbW2 "c1"
        = { hbW2 with
            byId := mset hbW2.byId "c1" ⟨"c1", some "u", some hbW2.nextTimer⟩,
            timers := hbW2.timers.filter (fun t => t.1 ≠ 0) ++ [(hbW2.nextTimer, "c1")],
            nextTimer := hbW2.nextTimer + 1 }
    ∧ startHeartbeat3 hbW1 "c1"
        = { hbW1 with
            byId := mset hbW1.byId "c1" ⟨"c1", some "u", some hbW1.nextTimer⟩,
            timers := hbW1.timers ++ [(hbW1.nextTimer, "c1")],
            nextTimer := hbW1.nextTimer + 1 }
    ∧ heartbeatTick hbW2 ["c1"] 0 = removeClient3 hbW2 "c1" :=
  ⟨⟨rfl, trivial⟩,
   C9_heartbeat_single_timer.1
     [W3Op.add "c1" (some "u"), W3Op.startHB "c1", W3Op.startHB "c1"] ⟨rfl, trivial⟩ "c1",
   C9_heartbeat_single_timer.2.1 hbW2 "c1" ⟨"c1", some "u", some 0⟩ 0 rfl rfl,
   C9_heartbeat_single_timer.2.2.1 hbW1 "c1" ⟨"c1", some "u", none⟩ rfl rfl,
   C9_heartbeat_single_timer.2.2.2 hbW2 ["c1"] 0 (0, "c1") rfl (by simp)⟩

/-! ## Lemmas about the client hook -/

theorem emitRun_spec (beh : Nat → Bool) (name : String) (p : Option Json) (hids : List Nat) :
    (emitRun beh name p hids).1 = hids.map (fun h => (h, name, p))
    ∧ (emitRun beh name p hids).2 = hids.filter beh := by
  induction hids with
  | nil => exact ⟨rfl, rfl⟩
  | cons h rest ih =>
    refine ⟨?_, ?_⟩
    · show (h, name, p) :: (emitRun beh name p rest).1 = (h, name, p) :: rest.map _
      rw [ih.1]
    · show (if beh h then h :: (emitRun beh name p rest).2 else (emitRun beh name p rest).2)
        = List.filter beh (h :: rest)
      rw [List.filter_cons]
      by_cases hb : beh h
      · rw [if_pos hb, ih.2]
        simp [hb]
      · rw [if_neg hb, ih.2]
        simp [hb]

theorem emit_fields (beh : Nat → Bool) (s : Hook) (name : String) (p : Option Json) :
    (emit beh s name p).retry = s.retry
    ∧ (emit beh s name p).scheduled = s.scheduled
    ∧ (emit beh s name p).timerPending = s.timerPending
    ∧ (emit beh s name p).destroyed = s.destroyed
    ∧ (emit beh s name p).es = s.es := by
  unfold emit
  cases mget s.listeners name with
  | none => exact ⟨rfl, rfl, rfl, rfl, rfl⟩
  | some hids => exact ⟨rfl, rfl, rfl, rfl, rfl⟩

theorem connect_fields (s : Hook) (h : s.es ≠ some 1) :
    (connect s).retry = s.retry ∧ (connect s).scheduled = s.scheduled
    ∧ (connect s).timerPending = false ∧ (connect s).destroyed = false
    ∧ (connect s).es = some 0 := by
  unfold connect
  rw [if_neg h]
  exact ⟨rfl, rfl, rfl, rfl, rfl⟩

theorem timerFire_pending (cfg : HookConfig) (beh : Nat → Bool) (parse : String → Json)
    (s : Hook) (h : s.timerPending = true) :
    stepHook cfg beh parse s HookEv.timerFireEv = connect { s with timerPending := false } := by
  show (if s.timerPending = true then connect { s with timerPending := false } else s) = _
  rw [if_pos h]

theorem scheduleReconnect_go (cfg : HookConfig) (s : Hook) (hen : cfg.reconnectEnabled = true)
    (hde : s.destroyed = false) (hlt : s.retry < cfg.maxRetries) :
    scheduleReconnect cfg s = { s with
      retry := s.retry + 1, timerPending := true,
      scheduled := s.scheduled ++ [min (cfg.initialDelayMs * 2 ^ s.retry) cfg.maxDelayMs] } := by
  unfold scheduleReconnect
  rw [if_neg (by simp [hen, hde]), if_neg (Nat.not_le.mpr hlt)]

theorem scheduleReconnect_capped (cfg : HookConfig) (s : Hook)
    (h : cfg.maxRetries ≤ s.retry) : scheduleReconnect cfg s = s := by
  unfold scheduleReconnect
  by_cases h1 : cfg.reconnectEnabled = false ∨ s.destroyed = true
  · rw [if_pos h1]
  · rw [if_neg h1, if_pos h]

theorem scheduleReconnect_destroyed (cfg : HookConfig) (s : Hook)
    (h : s.destroyed = true) : scheduleReconnect cfg s = s := by
  unfold scheduleReconnect
  rw [if_pos (Or.inr h)]

theorem scheduleReconnect_retry_mono (cfg : HookConfig) (s : Hook) :
    s.retry ≤ (scheduleReconnect cfg s).retry := by
  unfold scheduleReconnect
  split
  · exact Nat.le_refl _
  · split
    · exact Nat.le_refl _
    · exact Nat.le_succ _

theorem emit_retry (beh : Nat → Bool) (s : Hook) (name : String) (p : Option Json) :
    (emit beh s name p).retry = s.retry :=
  (emit_fields beh s name p).1

theorem connect_retry (s : Hook) : (connect s).retry = s.retry := by
  unfold connect
  split
  · rfl
  · rfl

theorem handleError_retry_mono (cfg : HookConfig) (beh : Nat → Bool) (s : Hook) (rs : Nat) :
    s.retry ≤ (handleError cfg beh s rs).retry := by
  unfold handleError
  by_cases hes : s.es.isSome = true
  · rw [if_pos hes]
    dsimp only
    by_cases hrs : rs = 2
    · rw [if_pos hrs]
      refine Nat.le_trans (Nat.le_of_eq ?_) (scheduleReconnect_retry_mono cfg _)
      rw [emit_retry]
    · rw [if_neg hrs]
      rw [emit_retry]
  · rw [if_neg hes]

theorem stepHook_retry_mono (cfg : HookConfig) (beh : Nat → Bool) (parse : String → Json)
    (s : Hook) (e : HookEv) (hne : e ≠ HookEv.openEv) :
    s.retry ≤ (stepHook cfg beh parse s e).retry := by
  cases e with
  | subscribe name hid =>
    show s.retry ≤ (addListener s name hid).retry
    unfold addListener
    dsimp only
    split
    · exact Nat.le_refl _
    · exact Nat.le_refl _
  | unsubscribe name hid =>
    show s.retry ≤ (removeListener s name hid).retry
    unfold removeListener
    split
    · exact Nat.le_refl _
    · dsimp only
      split
      · exact Nat.le_refl _
      · exact Nat.le_refl _
  | connectCall =>
    show s.retry ≤ (connect s).retry
    rw [connect_retry]
  | disconnectCall => exact Nat.le_refl _
  | openEv => exact absurd rfl hne
  | errorEv rs => exact handleError_retry_mono cfg beh s rs
  | messageEv evId raw =>
    show s.retry ≤ (handleMessage beh parse s evId raw).retry
    unfold handleMessage
    split
    · dsimp only
      rw [emit_retry]
    · exact Nat.le_refl _
  | namedEv name evId raw =>
    show s.retry ≤ (handleNamed beh parse s name evId raw).retry
    unfold handleNamed
    split
    · dsimp only
      rw [emit_retry]
    · exact Nat.le_refl _
  | timerFireEv =>
    show s.retry ≤ (if s.timerPending = true then connect { s with timerPending := false }
      else s).retry
    split
    · rw [connect_retry]
    · exact Nat.le_refl _

theorem handleError_closed (cfg : HookConfig) (beh : Nat → Bool) (s : Hook)
    (h : s.es.isSome = true) :
    handleError cfg beh s 2 = scheduleReconnect cfg
      (emit beh { s with
        es := some 2, connected := false, readyState := 2,
        errorFlag := true } "error" none) := by
  unfold handleError
  rw [if_pos h]
  dsimp only
  rw [if_pos rfl]

theorem runHook_append (cfg : HookConfig) (beh : Nat → Bool) (parse : String → Json)
    (s : Hook) (l1 l2 : List HookEv) :
    runHook cfg beh parse s (l1 ++ l2) = runHook cfg beh parse (runHook cfg beh parse s l1) l2 := by
  unfold runHook
  exact List.foldl_append _ _ _ _

theorem deadState_step (cfg : HookConfig) (beh : Nat → Bool) (parse : String → Json)
    (s : Hook) (e : HookEv) (hd : DeadState s) (hne : e ≠ HookEv.connectCall) :
    DeadState (stepHook cfg beh parse s e) := by
  obtain ⟨hes, htp, hde⟩ := hd
  cases e with
  | subscribe name hid =>
    show DeadState (addListener s name hid)
    unfold addListener
    dsimp only
    split
    · next hcond =>
        obtain ⟨-, hsome, -⟩ := hcond
        have h2 : s.es.isSome = true := hsome
        rw [hes] at h2
        exact absurd h2 (by simp)
    · next => exact ⟨hes, htp, hde⟩
  | unsubscribe name hid =>
    show DeadState (removeListener s name hid)
    unfold removeListener
    split
    · exact ⟨hes, htp, hde⟩
    · dsimp only
      split
      · exact ⟨hes, htp, hde⟩
      · exact ⟨hes, htp, hde⟩
  | connectCall => exact absurd rfl hne
  | disconnectCall => exact ⟨rfl, rfl, rfl⟩
  | openEv =>
    show DeadState (handleOpen beh s)
    unfold handleOpen
    rw [if_neg (by rw [hes]; simp)]
    exact ⟨hes, htp, hde⟩
  | errorEv rs =>
    show DeadState (handleError cfg beh s rs)
    unfold handleError
    rw [if_neg (by rw [hes]; simp)]
    exact ⟨hes, htp, hde⟩
  | messageEv evId raw =>
    show DeadState (handleMessage beh parse s evId raw)
    unfold handleMessage
    rw [if_neg (by rw [hes]; simp)]
    exact ⟨hes, htp, hde⟩
  | namedEv name evId raw =>
    show DeadState (handleNamed beh parse s name evId raw)
    unfold handleNamed
    rw [if_neg (by rw [hes]; simp)]
    exact ⟨hes, htp, hde⟩
  | timerFireEv =>
    show DeadState (if s.timerPending = true then connect { s with timerPending := false } else s)
    rw [if_neg (by rw [htp]; simp)]
    exact ⟨hes, htp, hde⟩

theorem deadState_run (cfg : HookConfig) (beh : Nat → Bool) (parse : String → Json)
    (evs : List HookEv) :
    ∀ s, DeadState s → (∀ e ∈ evs, e ≠ HookEv.connectCall) →
      DeadState (runHook cfg beh parse s evs) := by
  induction evs with
  | nil => intro s h _; exact h
  | cons e rest ih =>
    intro s h hall
    show DeadState (runHook cfg beh parse (stepHook cfg beh parse s e) rest)
    exact ih _ (deadState_step cfg beh parse s e h (hall e (by simp)))
      (fun e' he' => hall e' (by simp [he']))

/-! ## Claim theorems: subscriber dispatch isolation -/

/-- C7: the dispatcher's `emit` invokes every subscriber of the event name
exactly once, in registration order, no matter which handlers throw — a
throwing handler is caught and logged without stopping its siblings — and
the dispatcher itself returns normally, the exception never propagating
(the only state change is the invocation log and the caught-error log). -/
theorem C7_subscriber_isolation :
    ∀ (beh : Nat → Bool) (s : Hook) (name : String) (p : Option Json) (hids : List Nat),
      mget s.listeners name = some hids →
      emit beh s name p = { s with
        calls := s.calls ++ hids.map (fun h => (h, name, p)),
        handlerErrors := s.handlerErrors ++ hids.filter beh } := by
  intro beh s name p hids h
  unfold emit
  rw [h]
  dsimp only
  rw [(emitRun_spec beh name p hids).1, (emitRun_spec beh name p hids).2]

/-- C7 witness: three subscribers on `x` where handler 2 throws — all
three are invoked and only the caught error of handler 2 is logged. -/
theorem C7_subscriber_isolation_witness :
    emit (fun h => h == 2) c7Hook "x" (some (Json.str "d"))
      = { c7Hook with
          calls := c7Hook.calls
            ++ [(1, "x", some (Json.str "d")), (2, "x", some (Json.str "d")),
                (3, "x", some (Json.str "d"))],
          handlerErrors := c7Hook.handlerErrors ++ [2] } := by
  have h := C7_subscriber_isolation (fun h => h == 2) c7Hook "x" (some (Json.str "d"))
    [1, 2, 3] rfl
  rw [h]
  rfl

/-! ## Claim theorems: disconnect -/

/-- C8: `disconnect()` cancels any pending reconnect timer, closes and
drops the transport, marks the client destroyed and exposes the closed
state; a destroyed client never schedules a reconnect and a fired timer
does nothing; after `disconnect()` no sequence of non-`connect` events ever
re-creates a transport; and a subsequent `connect()` clears the destroyed
flag and opens a fresh connecting transport. -/
theorem C8_disconnect_cancels_and_reconnects :
    (∀ s : Hook, DeadState (disconnect s)
        ∧ (disconnect s).connected = false ∧ (disconnect s).readyState = 2)
  ∧ (∀ (cfg : HookConfig) (s : Hook), s.destroyed = true → scheduleReconnect cfg s = s)
  ∧ (∀ (cfg : HookConfig) (beh : Nat → Bool) (parse : String → Json) (s : Hook),
        stepHook cfg beh parse (disconnect s) HookEv.timerFireEv = disconnect s)
  ∧ (∀ (cfg : HookConfig) (beh : Nat → Bool) (parse : String → Json) (s : Hook)
        (evs : List HookEv), (∀ e ∈ evs, e ≠ HookEv.connectCall) →
        (runHook cfg beh parse (disconnect s) evs).es = none)
  ∧ (∀ s : Hook, (connect (disconnect s)).destroyed = false
        ∧ (connect (disconnect s)).es = some 0) := by
  refine ⟨?_, ?_, ?_, ?_, ?_⟩
  · intro s
    exact ⟨⟨rfl, rfl, rfl⟩, rfl, rfl⟩
  · intro cfg s h
    exact scheduleReconnect_destroyed cfg s h
  · intro cfg beh parse s
    show (if (disconnect s).timerPending = true
        then connect { disconnect s with timerPending := false }
        else disconnect s) = disconnect s
    rw [if_neg (fun h => Bool.noConfusion h)]
  · intro cfg beh parse s evs hall
    exact (deadState_run cfg beh parse evs (disconnect s) ⟨rfl, rfl, rfl⟩ hall).1
  · intro s
    unfold connect
    rw [if_neg (fun h => Option.noConfusion h)]
    exact ⟨rfl, rfl⟩

/-- C8 witness: after disconnecting the open hook, a destroyed-state
schedule call is inert and a stream of non-connect events never re-creates
a transport. -/
theorem C8_disconnect_witness :
    scheduleReconnect defaultHookConfig (disconnect hookOpen) = disconnect hookOpen
    ∧ (runHook defaultHookConfig behOk parseNull (disconnect hookOpen)
        [HookEv.openEv, HookEv.errorEv 2, HookEv.timerFireEv,
         HookEv.namedEv "connected" none "x"]).es = none :=
  ⟨C8_disconnect_cancels_and_reconnects.2.1 defaultHookConfig (disconnect hookOpen) rfl,
   C8_disconnect_cancels_and_reconnects.2.2.2.1 defaultHookConfig behOk parseNull hookOpen
     [HookEv.openEv, HookEv.errorEv 2, HookEv.timerFireEv,
      HookEv.namedEv "connected" none "x"] (by decide)⟩

/-! ## Lemmas about the backoff trace -/

theorem failInv_step (beh : Nat → Bool) (parse : String → Json) (n : Nat) (s : Hook)
    (hInv : FailInv n s) :
    FailInv (n + 1)
      (runHook defaultHookConfig beh parse s [HookEv.errorEv 2, HookEv.timerFireEv]) := by
  obtain ⟨hretry, hsched, htimer, hdest, hes⟩ := hInv
  show FailInv (n + 1)
    (stepHook defaultHookConfig beh parse
      (stepHook defaultHookConfig beh parse s (HookEv.errorEv 2)) HookEv.timerFireEv)
  have h1 : stepHook defaultHookConfig beh parse s (HookEv.errorEv 2)
      = handleError defaultHookConfig beh s 2 := rfl
  rw [h1, handleError_closed defaultHookConfig beh s hes]
  obtain ⟨hr1, hs1, ht1, hd1, he1⟩ := emit_fields beh
    { s with es := some 2, connected := false, readyState := 2, errorFlag := true } "error" none
  generalize hE : emit beh
    { s with es := some 2, connected := false, readyState := 2, errorFlag := true }
    "error" none = e1 at hr1 hs1 ht1 hd1 he1 ⊢
  have hr : e1.retry = min n 10 := by rw [hr1]; exact hretry
  have hd : e1.destroyed = false := by rw [hd1]; exact hdest
  have ht : e1.timerPending = false := by rw [ht1]; exact htimer
  have hsc : e1.scheduled = (List.range (min n 10)).map (fun k => min (1000 * 2 ^ k) 15000) := by
    rw [hs1]; exact hsched
  have he : e1.es = some 2 := by rw [he1]
  by_cases hn : n < 10
  · have hmin : min n 10 = n := min_eq_left (Nat.le_of_lt hn)
    have hlt : e1.retry < defaultHookConfig.maxRetries := by
      rw [hr, hmin]; exact hn
    rw [scheduleReconnect_go defaultHookConfig e1 rfl hd hlt]
    rw [timerFire_pending defaultHookConfig beh parse _ rfl]
    have hne1 : ({ { e1 with
        retry := e1.retry + 1, timerPending := true,
        scheduled := e1.scheduled
          ++ [min (defaultHookConfig.initialDelayMs * 2 ^ e1.retry)
                defaultHookConfig.maxDelayMs] } with timerPending := false } : Hook).es
        ≠ some 1 := by
      show e1.es ≠ some 1
      rw [he]
      simp
    obtain ⟨hcr, hcs, hct, hcd, hce⟩ := connect_fields _ hne1
    refine ⟨?_, ?_, hct, hcd, ?_⟩
    · rw [hcr]
      show e1.retry + 1 = min (n + 1) 10
      rw [hr, hmin, min_eq_left (by omega)]
    · rw [hcs]
      show e1.scheduled
          ++ [min (defaultHookConfig.initialDelayMs * 2 ^ e1.retry)
                defaultHookConfig.maxDelayMs]
        = (List.range (min (n + 1) 10)).map (fun k => min (1000 * 2 ^ k) 15000)
      rw [hsc, hr, hmin, min_eq_left (show n + 1 ≤ 10 by omega), List.range_succ,
        List.map_append]
      rfl
    · rw [hce]
      rfl
  · have h10 : 10 ≤ n := Nat.le_of_not_lt hn
    have hmin : min n 10 = 10 := min_eq_right h10
    have hcap : defaultHookConfig.maxRetries ≤ e1.retry := by
      rw [hr, hmin]
      exact Nat.le_refl 10
    rw [scheduleReconnect_capped defaultHookConfig e1 hcap]
    have hfire : stepHook defaultHookConfig beh parse e1 HookEv.timerFireEv = e1 := by
      show (if e1.timerPending = true then connect { e1 with timerPending := false } else e1) = e1
      rw [ht]
      simp
    rw [hfire]
    refine ⟨?_, ?_, ht, hd, ?_⟩
    · rw [hr, hmin, min_eq_right (by omega)]
    · rw [hsc, hmin, min_eq_right (by omega)]
    · rw [he]
      rfl

theorem failInv_cycles (beh : Nat → Bool) (parse : String → Json) (n : Nat) :
    ∀ s, FailInv 0 s → FailInv n (runHook defaultHookConfig beh parse s (failureCycles n)) := by
  induction n with
  | zero => intro s h; exact h
  | succ n ih =>
    intro s h
    show FailInv (n + 1)
      (runHook defaultHookConfig beh parse s
        (failureCycles n ++ [HookEv.errorEv 2, HookEv.timerFireEv]))
    rw [runHook_append]
    exact failInv_step beh parse n _ (ih s h)

/-! ## Claim theorems: reconnect backoff -/

/-- C3: the delay of the k-th scheduled retry is
`min(initialDelayMs * 2^k, maxDelayMs)` and the attempt counter is bumped
exactly by the scheduling; once the counter reaches `maxRetries` no retry
is scheduled; the counter resets to 0 only on a successful open — a mere
`connect()` attempt keeps it, and no event other than an open ever lowers
it; under the defaults, `n` consecutive failure cycles schedule exactly
`min(n,10)` retries with the capped exponential delays (so no 11th retry
is ever scheduled). -/
theorem C3_reconnect_backoff :
    (∀ (cfg : HookConfig) (s : Hook), cfg.reconnectEnabled = true → s.destroyed = false →
        s.retry < cfg.maxRetries →
        scheduleReconnect cfg s = { s with
          retry := s.retry + 1, timerPending := true,
          scheduled := s.scheduled
            ++ [min (cfg.initialDelayMs * 2 ^ s.retry) cfg.maxDelayMs] })
  ∧ (∀ (cfg : HookConfig) (s : Hook), cfg.maxRetries ≤ s.retry →
        scheduleReconnect cfg s = s)
  ∧ (∀ (beh : Nat → Bool) (s : Hook), s.es = some 0 → (handleOpen beh s).retry = 0)
  ∧ (∀ s : Hook, (connect s).retry = s.retry)
  ∧ (∀ (cfg : HookConfig) (beh : Nat → Bool) (parse : String → Json) (s : Hook) (e : HookEv),
        e ≠ HookEv.openEv → s.retry ≤ (stepHook cfg beh parse s e).retry)
  ∧ (∀ (beh : Nat → Bool) (parse : String → Json) (n : Nat) (s : Hook), FailInv 0 s →
        FailInv n (runHook defaultHookConfig beh parse s (failureCycles n))) := by
  refine ⟨?_, ?_, ?_, ?_, ?_, ?_⟩
  · intro cfg s hen hde hlt
    exact scheduleReconnect_go cfg s hen hde hlt
  · intro cfg s h
    exact scheduleReconnect_capped cfg s h
  · intro beh s h
    unfold handleOpen
    rw [if_pos h]
    exact (emit_fields beh
      { s with
        es := some 1, retry := 0, connected := true, readyState := 1,
        errorFlag := false } "open" none).1
  · intro s
    exact connect_retry s
  · intro cfg beh parse s e hne
    exact stepHook_retry_mono cfg beh parse s e hne
  · intro beh parse n s h
    exact failInv_cycles beh parse n s h

/-- C3 witness: from the freshly opened hook under the default
configuration, the first schedule arms a 1000 ms timer and bumps the
counter; opening resets the counter; and 12 consecutive failure cycles
schedule exactly the ten capped delays `1000, 2000, 4000, 8000, 15000, …`
with no 11th retry. -/
theorem C3_reconnect_backoff_witness :
    scheduleReconnect defaultHookConfig hookOpen
        = { hookOpen with
            retry := hookOpen.retry + 1, timerPending := true,
            scheduled := hookOpen.scheduled
              ++ [min (defaultHookConfig.initialDelayMs * 2 ^ hookOpen.retry)
                    defaultHookConfig.maxDelayMs] }
    ∧ (handleOpen behOk (connect (Hook.start none))).retry = 0
    ∧ scheduleReconnect defaultHookConfig
        (runHook defaultHookConfig behOk parseNull hookOpen (failureCycles 12))
        = runHook defaultHookConfig behOk parseNull hookOpen (failureCycles 12)
    ∧ hookOpen.retry ≤ (stepHook defaultHookConfig behOk parseNull hookOpen
        (HookEv.errorEv 2)).retry
    ∧ FailInv 12 (runHook defaultHookConfig behOk parseNull hookOpen (failureCycles 12))
    ∧ (runHook defaultHookConfig behOk parseNull hookOpen (failureCycles 12)).scheduled
        = [1000, 2000, 4000, 8000, 15000, 15000, 15000, 15000, 15000, 15000] := by
  refine ⟨C3_reconnect_backoff.1 defaultHookConfig hookOpen rfl rfl (by decide),
          C3_reconnect_backoff.2.2.1 behOk (connect (Hook.start none)) rfl,
          C3_reconnect_backoff.2.1 defaultHookConfig
            (runHook defaultHookConfig behOk parseNull hookOpen (failureCycles 12)) (by decide),
          C3_reconnect_backoff.2.2.2.2.1 defaultHookConfig behOk parseNull hookOpen
            (HookEv.errorEv 2) (by decide),
          C3_reconnect_backoff.2.2.2.2.2 behOk parseNull 12 hookOpen ⟨rfl, rfl, rfl, rfl, rfl⟩,
          ?_⟩
  have h := (C3_reconnect_backoff.2.2.2.2.2 behOk parseNull 12 hookOpen
    ⟨rfl, rfl, rfl, rfl, rfl⟩).2.1
  rw [h]
  rfl

/-! ## Claim theorems: subscribe-before-connect -/

/-- C5 (behavior of the code at the specified scenario): subscribing to
`connected` before `connect()` stores the handler, and after `connect()`
and a successful open the transport is live — yet no browser-level
listener for `connected` was ever attached (`connect` wires only
open/error/message, and `addListener` wires a name only when a transport
object already exists), so the arriving `connected` frame invokes nothing
and `lastEventName` stays `null`.  Subscribing after `connect()` — the
nearby working order — delivers the frame to the handler exactly once and
sets `lastEventName`. -/
theorem C5_subscribe_before_connect_code_behavior :
    mget (runHook defaultHookConfig behOk parseNull (Hook.start none) c5Trace).listeners
        "connected" = some [1]
    ∧ (runHook defaultHookConfig behOk parseNull (Hook.start none) c5Trace).es = some 1
    ∧ (runHook defaultHookConfig behOk parseNull (Hook.start none) c5Trace).attached = []
    ∧ (runHook defaultHookConfig behOk parseNull (Hook.start none) c5Trace).calls = []
    ∧ (runHook defaultHookConfig behOk parseNull (Hook.start none) c5Trace).lastEventName = none
    ∧ (runHook defaultHookConfig behOk parseNull (Hook.start none) c5LateTrace).calls
        = [(1, "connected", some (parseNull "c5payload"))]
    ∧ (runHook defaultHookConfig behOk parseNull (Hook.start none) c5LateTrace).lastEventName
        = some "connected" :=
  ⟨rfl, rfl, rfl, rfl, rfl, rfl, rfl⟩

end SSE
